import Mathlib

/-!
Verification of the LADA execution engine (step graph, retry policy, error
classifier, rollback manager, state machine, watchdog, orchestrator).

The definitions below are a shallow embedding of the Python sources under
`stt/lada_v2`.  Conventions used throughout:

* Python dicts used as lookup tables become association lists queried with
  `dictGet` (same semantics as `dict.get(key, default)`).
* The per-session failure-counter dict of `RetryPolicy` becomes a total
  function `(action, method) → Nat` with default 0 (only `get`/`set` are
  ever used on it).
* Wall-clock readings (`datetime.now()`, `time.monotonic()`) become an
  explicit logical clock argument (`Nat` for node timestamps, `Rat` for the
  watchdog's monotonic seconds); float durations are not modelled.
* Step ids: the source generates `"s{i+1}_{uuid4-hex}"`, unique because the
  positional index differs; the random uuid suffix carries no information,
  so ids are modelled as the bare 1-based index (a `Nat`).
* Exceptions become `Except String`; the async executors, verifier and
  recovery routines called by the orchestrator are external backends and
  are modelled as boolean oracle functions.
-/

namespace Lada

/-- Python `dict.get(key, default)` over an association-list table. -/
def dictGet {α : Type} (l : List (String × α)) (k : String) (d : α) : α :=
  match l with
  | [] => d
  | (k', v) :: rest => if k = k' then v else dictGet rest k d

/-- Prefix test on character lists. -/
def prefixOfChars : List Char → List Char → Bool
  | [], _ => true
  | _ :: _, [] => false
  | p :: ps, c :: cs => p == c && prefixOfChars ps cs

/-- Occurrence test on character lists. -/
def hasSubChars (pat : List Char) : List Char → Bool
  | [] => prefixOfChars pat []
  | c :: rest => prefixOfChars pat (c :: rest) || hasSubChars pat rest

/-- Substring test, used to model matching a literal regex fragment
(structurally recursive so that proofs can evaluate it). -/
def containsSub (s pat : String) : Bool :=
  hasSubChars pat.data s.data

/-- ASCII lower-casing (`str.lower()` on the ASCII error messages). -/
def lowerChar (c : Char) : Char :=
  if 65 ≤ c.toNat ∧ c.toNat ≤ 90 then Char.ofNat (c.toNat + 32) else c

/-- Lower-case a string character-wise. -/
def lowerStr (s : String) : String := String.mk (s.data.map lowerChar)

-- ══════════════════════════════════════════════════════════
-- step_graph.py
-- ══════════════════════════════════════════════════════════

/-- `StepStatus` enum from `core/step_graph.py`. -/
inductive StepStatus where
  | PENDING | RUNNING | SUCCESS | FAILED | SKIPPED | ROLLED_BACK
deriving DecidableEq, Repr

/-- One plan step as emitted by the planner: `{action, value, method}`. -/
structure Step where
  action : String
  value  : String
  method : String
deriving DecidableEq, Repr

/-- A plan: `{task: ..., steps: [...]}`. -/
structure Plan where
  task  : String
  steps : List Step
deriving DecidableEq, Repr

/-- `ACTION_TIMEOUT` table (float seconds modelled as `Rat`). -/
def ACTION_TIMEOUT : List (String × Rat) :=
  [("open_app", 12), ("open_terminal", 8), ("navigate", 30),
   ("find_and_click", 8), ("click_button", 6), ("click_result", 6),
   ("type_text", 5), ("search", 5), ("verify_window", 15),
   ("focus_window", 5), ("close_window", 5), ("wait_for_element", 20),
   ("set_volume", 4), ("set_brightness", 4), ("run_command", 30),
   ("scroll", 3), ("get_text", 5), ("open_menu", 5)]

def DEFAULT_TIMEOUT : Rat := 10

/-- `ACTION_MAX_RETRIES` table. -/
def ACTION_MAX_RETRIES : List (String × Nat) :=
  [("open_app", 2), ("navigate", 3), ("find_and_click", 3),
   ("click_button", 3), ("type_text", 2), ("verify_window", 3),
   ("run_command", 2), ("wait_for_element", 2)]

def DEFAULT_MAX_RETRIES : Nat := 3

/-- `ROLLBACK_MAP`: action → optional compensating action.  Python
`ROLLBACK_MAP.get(action)` yields `None` both for an absent key and for an
explicit `None` value, which the `Option`-valued table reproduces. -/
def ROLLBACK_MAP : List (String × Option String) :=
  [("open_app", some "close_window"), ("open_terminal", some "close_window"),
   ("navigate", none), ("find_and_click", none), ("click_button", none),
   ("type_text", none), ("set_volume", none), ("set_brightness", none),
   ("focus_window", none), ("close_window", some "open_app")]

/-- `StepNode` dataclass: build-time metadata plus mutable runtime state. -/
structure StepNode where
  step_id     : Nat
  seq_num     : Nat
  action      : String
  value       : String
  method      : String
  depends_on  : List Nat
  timeout_s   : Rat
  max_retries : Nat
  rollback_action : Option String
  status      : StepStatus
  attempts    : Nat
  error       : String
  started_at  : Option Nat
  finished_at : Option Nat
  method_used : String
deriving DecidableEq, Repr

namespace StepNode

/-- `mark_running`: idempotency guard — already-successful nodes are
no-ops; otherwise set RUNNING, stamp `started_at`, bump `attempts`. -/
def markRunning (now : Nat) (n : StepNode) : StepNode :=
  if n.status = StepStatus.SUCCESS then n
  else { n with status := StepStatus.RUNNING, started_at := some now,
                attempts := n.attempts + 1 }

/-- `mark_success`. -/
def markSuccess (now : Nat) (methodUsed : String) (n : StepNode) : StepNode :=
  { n with status := StepStatus.SUCCESS, finished_at := some now,
           method_used := methodUsed }

/-- `mark_failed`. -/
def markFailed (now : Nat) (err : String) (n : StepNode) : StepNode :=
  { n with status := StepStatus.FAILED, finished_at := some now,
           error := err }

/-- `mark_skipped`. -/
def markSkipped (reason : String) (n : StepNode) : StepNode :=
  { n with status := StepStatus.SKIPPED, error := reason }

/-- `is_done`: SUCCESS or SKIPPED. -/
def isDone (n : StepNode) : Bool :=
  n.status = StepStatus.SUCCESS || n.status = StepStatus.SKIPPED

/-- `to_step_dict`. -/
def toStepDict (n : StepNode) : Step :=
  { action := n.action, value := n.value, method := n.method }

end StepNode

/-- `StepGraph` object state (`_id_index` is derived from `nodes` by
lookup, see `getNode`). -/
structure StepGraph where
  nodes     : List StepNode
  task_name : String
  frozen    : Bool
deriving Repr

namespace StepGraph

/-- `_id_index` lookup (`get_node`). -/
def getNode (g : StepGraph) (i : Nat) : Option StepNode :=
  g.nodes.find? (fun n => n.step_id = i)

/-- `_deps_ok`: a missing dependency id passes (`if dep and ...`). -/
def depsOk (g : StepGraph) (n : StepNode) : Bool :=
  n.depends_on.all (fun d =>
    match g.getNode d with
    | none => true
    | some dep => dep.isDone)

/-- `pending_nodes`: PENDING nodes with all dependencies done. -/
def pendingNodes (g : StepGraph) : List StepNode :=
  g.nodes.filter (fun n => n.status = StepStatus.PENDING && g.depsOk n)

/-- `is_complete`. -/
def isComplete (g : StepGraph) : Bool := g.nodes.all StepNode.isDone

/-- `has_failed`. -/
def hasFailed (g : StepGraph) : Bool :=
  g.nodes.any (fun n => n.status = StepStatus.FAILED)

/-- `failed_nodes`. -/
def failedNodes (g : StepGraph) : List StepNode :=
  g.nodes.filter (fun n => n.status = StepStatus.FAILED)

/-- `progress`: `(done, total)` where done counts SUCCESS and SKIPPED. -/
def progress (g : StepGraph) : Nat × Nat :=
  ((g.nodes.filter StepNode.isDone).length, g.nodes.length)

/-- `freeze`. -/
def freeze (g : StepGraph) : StepGraph := { g with frozen := true }

/-- `_assert_mutable`: raises `GraphMutationError` when frozen. -/
def assertMutable (g : StepGraph) : Except String Unit :=
  if g.frozen then
    Except.error ("Cannot modify frozen StepGraph during execution. " ++
                  "Create a new graph to replan.")
  else Except.ok ()

/-- Modelled from the spec: the source defines the `_assert_mutable` /
`GraphMutationError` guard but ships no structural mutator that calls it;
the spec states that once frozen, no node may be added.  This is the
guarded add-node operation implied by that contract. -/
def addNode (g : StepGraph) (n : StepNode) : Except String StepGraph := do
  _ ← g.assertMutable
  Except.ok { g with nodes := g.nodes ++ [n] }

/-- Modelled from the spec: guarded remove-node operation (see `addNode`). -/
def removeNode (g : StepGraph) (i : Nat) : Except String StepGraph := do
  _ ← g.assertMutable
  Except.ok { g with nodes := g.nodes.filter (fun n => n.step_id ≠ i) }

/-- In-place mutation of one node (`node.mark_*` through the id index). -/
def updateNode (g : StepGraph) (i : Nat) (f : StepNode → StepNode) : StepGraph :=
  { g with nodes := g.nodes.map (fun n => if n.step_id = i then f n else n) }

end StepGraph

/-- One compensating step produced by the rollback queries
(`{"action": ..., "value": ..., "method": "system", "_for": ...}`). -/
structure RollbackStep where
  action  : String
  value   : String
  method  : String
  forStep : Nat
deriving DecidableEq, Repr

namespace StepGraph

/-- Inner loop of `rollback_steps_after`: walks the reversed node list
carrying the `found` flag, which turns on at the failed node. -/
def rollbackAfterGo (failedId : Nat) : List StepNode → Bool → List RollbackStep
  | [], _ => []
  | n :: rest, found =>
    let found := found || n.step_id = failedId
    if found && n.status = StepStatus.SUCCESS && n.rollback_action.isSome then
      { action := n.rollback_action.getD "", value := n.value,
        method := "system", forStep := n.step_id }
        :: rollbackAfterGo failedId rest found
    else rollbackAfterGo failedId rest found

/-- `rollback_steps_after(failed_step_id)`. -/
def rollbackStepsAfter (g : StepGraph) (failedId : Nat) : List RollbackStep :=
  rollbackAfterGo failedId g.nodes.reverse false

/-- `rollback_all`: compensations for every SUCCESS node with a rollback
action, in reverse node order. -/
def rollbackAllSteps (g : StepGraph) : List RollbackStep :=
  (g.nodes.reverse.filter (fun n =>
      n.status = StepStatus.SUCCESS && n.rollback_action.isSome)).map
    (fun n => { action := n.rollback_action.getD "", value := n.value,
                method := "system", forStep := n.step_id })

end StepGraph

-- ── Graph build (`from_plan` / `_validate`) ────────────────

/-- `[prev_id] if prev_id else []`. -/
def optList : Option Nat → List Nat
  | none => []
  | some p => [p]

/-- The `StepNode` built by `from_plan` for the step at 0-based position
`i`: id and sequence number `i+1`, dependencies on the previous id,
budgets from the per-action tables. -/
def freshNode (i : Nat) (prev : Option Nat) (s : Step) : StepNode :=
  { step_id := i + 1, seq_num := i + 1, action := s.action,
    value := s.value, method := s.method, depends_on := optList prev,
    timeout_s := dictGet ACTION_TIMEOUT s.action DEFAULT_TIMEOUT,
    max_retries := dictGet ACTION_MAX_RETRIES s.action DEFAULT_MAX_RETRIES,
    rollback_action := (dictGet ROLLBACK_MAP s.action none),
    status := StepStatus.PENDING, attempts := 0, error := "",
    started_at := none, finished_at := none, method_used := "" }

/-- The node-construction loop of `from_plan`: node `i` (0-based) gets id
and sequence number `i+1` and depends on the previous node's id. -/
def buildNodes (i : Nat) (prev : Option Nat) : List Step → List StepNode
  | [] => []
  | s :: rest => freshNode i prev s :: buildNodes (i + 1) (some (i + 1)) rest

/-- One DFS job: visit a node (`inl nid`) or process a dependency list of
the node currently on top of the recursion stack (`inr deps`).  The fuel
argument strictly decreases on every call; `validateDfs` supplies more
fuel than any run can consume, so the encoding agrees with the unbounded
Python recursion. -/
def dfsRun (g : StepGraph) (fuel : Nat) (job : Sum Nat (List Nat))
    (visited recStack : List Nat) : Except String (List Nat) :=
  match fuel, job with
  | 0, _ => Except.error "DFS fuel exhausted"
  | fuel + 1, Sum.inl nid =>
    let visited := nid :: visited
    match g.getNode nid with
    | none => Except.error "id index lookup failed"
    | some node => dfsRun g fuel (Sum.inr node.depends_on) visited (nid :: recStack)
  | _ + 1, Sum.inr [] => Except.ok visited
  | fuel + 1, Sum.inr (d :: ds) =>
    if d ∈ visited then
      if d ∈ recStack then
        Except.error ("Circular dependency detected involving node: " ++ toString d)
      else dfsRun g fuel (Sum.inr ds) visited recStack
    else
      match dfsRun g fuel (Sum.inl d) visited recStack with
      | Except.error e => Except.error e
      | Except.ok v2 => dfsRun g fuel (Sum.inr ds) v2 recStack

/-- The `for nid in ids: if nid not in visited: dfs(nid)` loop (Python set
iteration determinized to node order). -/
def validateRoots (g : StepGraph) (fuel : Nat) :
    List Nat → List Nat → Except String (List Nat)
  | [], visited => Except.ok visited
  | nid :: rest, visited =>
    if nid ∈ visited then validateRoots g fuel rest visited
    else
      match dfsRun g fuel (Sum.inl nid) visited [] with
      | Except.error e => Except.error e
      | Except.ok v2 => validateRoots g fuel rest v2

/-- Fuel bound: one unit per node visit plus one per dependency edge plus
slack, enough for any complete DFS. -/
def dfsFuel (g : StepGraph) : Nat :=
  2 * (g.nodes.length + (g.nodes.map (fun n => n.depends_on.length)).sum) + 4

/-- `_validate`: orphan check, then cycle detection by DFS. -/
def validateGraph (g : StepGraph) : Except String Unit :=
  let ids := g.nodes.map (fun n => n.step_id)
  match g.nodes.find? (fun n => !n.depends_on.all (fun d => d ∈ ids)) with
  | some n => Except.error ("Node " ++ toString n.step_id ++ " depends on unknown ID")
  | none =>
    match validateRoots g (dfsFuel g) ids [] with
    | Except.error e => Except.error e
    | Except.ok _ => Except.ok ()

/-- `StepGraph.from_plan`. -/
def fromPlan (plan : Plan) : Except String StepGraph :=
  if plan.steps = [] then Except.error "Plan has no steps."
  else
    let g : StepGraph := { nodes := buildNodes 0 none plan.steps,
                           task_name := plan.task, frozen := false }
    match validateGraph g with
    | Except.error e => Except.error e
    | Except.ok _ => Except.ok g

/-- Dependency relation induced by a node list: `depRel ns a b` holds when
the node with id `a` lists `b` among its dependencies. -/
def depRel (ns : List StepNode) (a b : Nat) : Prop :=
  ∃ n, n ∈ ns ∧ n.step_id = a ∧ b ∈ n.depends_on

/-- A dependency cycle: some id reaches itself through `depRel`. -/
def hasCycle (ns : List StepNode) : Prop :=
  ∃ a, Relation.TransGen (depRel ns) a a

/-- An orphan reference: some dependency id names no node. -/
def hasUnknownDep (ns : List StepNode) : Prop :=
  ∃ n, n ∈ ns ∧ ∃ d, d ∈ n.depends_on ∧ d ∉ ns.map (fun m => m.step_id)

-- ══════════════════════════════════════════════════════════
-- state_machine.py
-- ══════════════════════════════════════════════════════════

/-- `TaskState` enum. -/
inductive TaskState where
  | INIT | PLANNED | EXECUTING | VERIFYING | RECOVERING
  | SUCCESS | FAILED | CANCELLED
deriving DecidableEq, Repr

/-- The `ALLOWED` transition table. -/
def ALLOWED : TaskState → List TaskState
  | TaskState.INIT => [TaskState.PLANNED, TaskState.CANCELLED]
  | TaskState.PLANNED => [TaskState.EXECUTING, TaskState.FAILED, TaskState.CANCELLED]
  | TaskState.EXECUTING => [TaskState.VERIFYING, TaskState.RECOVERING, TaskState.FAILED]
  | TaskState.VERIFYING => [TaskState.EXECUTING, TaskState.RECOVERING,
                            TaskState.SUCCESS, TaskState.FAILED]
  | TaskState.RECOVERING => [TaskState.EXECUTING, TaskState.VERIFYING,
                             TaskState.PLANNED, TaskState.FAILED]
  | TaskState.SUCCESS => [TaskState.INIT]
  | TaskState.FAILED => [TaskState.INIT]
  | TaskState.CANCELLED => [TaskState.INIT]

def TERMINAL_STATES : List TaskState :=
  [TaskState.SUCCESS, TaskState.FAILED, TaskState.CANCELLED]

/-- `StateMachine.transition` (history/step bookkeeping omitted): the
table guard, then the terminal-state guard, then the new state. -/
def transition (s t : TaskState) : Except String TaskState :=
  if t ∉ ALLOWED s then
    Except.error "IllegalTransitionError: not allowed by table"
  else if s ∈ TERMINAL_STATES ∧ t ≠ TaskState.INIT then
    Except.error "IllegalTransitionError: terminal state lock"
  else Except.ok t

/-- `force_reset`: bypasses validation and lands in INIT. -/
def forceReset (_ : TaskState) : TaskState := TaskState.INIT

-- ══════════════════════════════════════════════════════════
-- error_classifier.py
-- ══════════════════════════════════════════════════════════

/-- `ErrorClass` enum. -/
inductive ErrorClass where
  | ELEMENT_NOT_FOUND | WINDOW_NOT_OPEN | TIMEOUT | PROCESS_DEAD
  | PERMISSION_DENIED | BROWSER_CRASH | NETWORK_ERROR | SCHEMA_INVALID
  | ACCESSIBILITY_FAIL | CV_NO_MATCH | COMMAND_FAILED | UNKNOWN
deriving DecidableEq, Repr

/-- `.value` strings of `ErrorClass`. -/
def ErrorClass.value : ErrorClass → String
  | ELEMENT_NOT_FOUND => "element_not_found"
  | WINDOW_NOT_OPEN => "window_not_open"
  | TIMEOUT => "timeout"
  | PROCESS_DEAD => "process_dead"
  | PERMISSION_DENIED => "permission_denied"
  | BROWSER_CRASH => "browser_crash"
  | NETWORK_ERROR => "network_error"
  | SCHEMA_INVALID => "schema_invalid"
  | ACCESSIBILITY_FAIL => "accessibility_fail"
  | CV_NO_MATCH => "cv_no_match"
  | COMMAND_FAILED => "command_failed"
  | UNKNOWN => "unknown"

/-- `RECOVERY_STRATEGY` table. -/
def RECOVERY_STRATEGY : ErrorClass → String
  | ErrorClass.ELEMENT_NOT_FOUND => "switch_method"
  | ErrorClass.WINDOW_NOT_OPEN => "reopen_app"
  | ErrorClass.TIMEOUT => "retry_with_longer_wait"
  | ErrorClass.PROCESS_DEAD => "relaunch_process"
  | ErrorClass.PERMISSION_DENIED => "skip_or_escalate"
  | ErrorClass.BROWSER_CRASH => "restart_browser"
  | ErrorClass.NETWORK_ERROR => "retry_with_backoff"
  | ErrorClass.SCHEMA_INVALID => "replan"
  | ErrorClass.ACCESSIBILITY_FAIL => "switch_to_cv"
  | ErrorClass.CV_NO_MATCH => "switch_to_ocr"
  | ErrorClass.COMMAND_FAILED => "alternative_command"
  | ErrorClass.UNKNOWN => "full_reset"

/-- `RETRY_BUDGET` table; PERMISSION_DENIED carries 0
("don't retry — will keep failing"). -/
def RETRY_BUDGET : ErrorClass → Nat
  | ErrorClass.ELEMENT_NOT_FOUND => 3
  | ErrorClass.WINDOW_NOT_OPEN => 2
  | ErrorClass.TIMEOUT => 3
  | ErrorClass.PROCESS_DEAD => 1
  | ErrorClass.PERMISSION_DENIED => 0
  | ErrorClass.BROWSER_CRASH => 1
  | ErrorClass.NETWORK_ERROR => 4
  | ErrorClass.SCHEMA_INVALID => 1
  | ErrorClass.ACCESSIBILITY_FAIL => 2
  | ErrorClass.CV_NO_MATCH => 2
  | ErrorClass.COMMAND_FAILED => 2
  | ErrorClass.UNKNOWN => 1

/-- `ClassifiedError` dataclass. -/
structure ClassifiedError where
  error_class  : ErrorClass
  original_msg : String
  strategy     : String
  retry_budget : Nat
deriving DecidableEq, Repr

/-- `ClassifiedError.should_retry`. -/
def ClassifiedError.shouldRetry (c : ClassifiedError) : Bool :=
  c.retry_budget > 0

/-- `_PATTERNS`, in source order.  Each regex is an alternation of literal
fragments; a fragment containing `.*` (or an optional letter) is modelled
as the conjunction of its distinguishing literal substrings, so an
alternative is a list of substrings that must all occur. -/
def ERROR_PATTERNS : List (List (List String) × ErrorClass) :=
  [([["timeout"], ["timed out"], ["time out"], ["asyncio.timeouterror"]],
    ErrorClass.TIMEOUT),
   ([["element not found"], ["no such element"], ["locator", "not visible"],
     ["element", "invisible"], ["find_element"], ["elementnotfound"]],
    ErrorClass.ELEMENT_NOT_FOUND),
   ([["window not found"], ["wmctrl", "fail"], ["no window", "title"],
     ["window", "does not exist"]],
    ErrorClass.WINDOW_NOT_OPEN),
   ([["process", "dead"], ["pgrep", "fail"], ["no such process"],
     ["process not running"]],
    ErrorClass.PROCESS_DEAD),
   ([["permission denied"], ["operation not permitted"], ["access denied"],
     ["sudo required"]],
    ErrorClass.PERMISSION_DENIED),
   ([["browser", "crash"], ["playwright", "closed"], ["page", "crashed"],
     ["connection refused", "browser"], ["target closed"]],
    ErrorClass.BROWSER_CRASH),
   ([["connection refused"], ["network", "error"], ["dns", "fail"],
     ["http", "error"], ["ssl", "error"], ["name", "resolution"]],
    ErrorClass.NETWORK_ERROR),
   ([["pyatspi"], ["at-spi"], ["dbus", "error"], ["accessibility", "fail"],
     ["atspi"]],
    ErrorClass.ACCESSIBILITY_FAIL),
   ([["template", "not found"], ["no match"], ["matchtemplate"],
     ["confidence", "below"]],
    ErrorClass.CV_NO_MATCH),
   ([["schema", "fail"], ["validation", "fail"], ["missing", "field"],
     ["invalid", "json"]],
    ErrorClass.SCHEMA_INVALID),
   ([["command", "fail"], ["returncode"], ["subprocess", "error"],
     ["exit code"]],
    ErrorClass.COMMAND_FAILED)]

/-- `_match_patterns`: first pattern whose alternation matches. -/
def matchPatterns (msg : String) : ErrorClass :=
  match ERROR_PATTERNS.find? (fun p =>
      p.1.any (fun alt => alt.all (fun frag => containsSub msg frag))) with
  | some p => p.2
  | none => ErrorClass.UNKNOWN

/-- `_contextual_classify`. -/
def contextualClassify (action method : String) : ErrorClass :=
  if method = "accessibility" then ErrorClass.ACCESSIBILITY_FAIL
  else if method = "cv" then ErrorClass.CV_NO_MATCH
  else if action ∈ ["find_and_click", "click_button", "navigate",
                    "type_text", "wait_for_element"] then
    ErrorClass.ELEMENT_NOT_FOUND
  else if action ∈ ["focus_window", "verify_window", "close_window"] then
    ErrorClass.WINDOW_NOT_OPEN
  else ErrorClass.UNKNOWN

/-- `ErrorClassifier.classify`. -/
def classify (errorMsg action method : String) : ClassifiedError :=
  let msgLower := lowerStr errorMsg
  let matched := matchPatterns msgLower
  let matched :=
    if matched = ErrorClass.UNKNOWN then contextualClassify action method
    else matched
  { error_class := matched, original_msg := errorMsg,
    strategy := RECOVERY_STRATEGY matched, retry_budget := RETRY_BUDGET matched }

-- ══════════════════════════════════════════════════════════
-- utils/retry_policy.py
-- ══════════════════════════════════════════════════════════

/-- `METHOD_PRIORITY` static fallback chains. -/
def METHOD_PRIORITY : List (String × List String) :=
  [("open_app", ["system", "accessibility", "cv"]),
   ("open_terminal", ["system"]),
   ("find_and_click", ["accessibility", "browser", "cv"]),
   ("click_button", ["accessibility", "browser", "cv"]),
   ("click_result", ["accessibility", "browser", "cv"]),
   ("type_text", ["accessibility", "browser", "system"]),
   ("search", ["accessibility", "browser"]),
   ("navigate", ["browser"]),
   ("focus_window", ["system", "accessibility"]),
   ("close_window", ["system", "accessibility"]),
   ("set_volume", ["system"]),
   ("set_brightness", ["system"]),
   ("run_command", ["system"]),
   ("verify_window", ["system", "accessibility"]),
   ("wait_for_element", ["accessibility", "browser"]),
   ("scroll", ["browser", "system", "cv"]),
   ("get_text", ["accessibility", "browser", "cv"]),
   ("open_menu", ["system", "accessibility"])]

def DEFAULT_PRIORITY : List String :=
  ["accessibility", "system", "browser", "cv"]

def FAILURE_DEMOTION_THRESHOLD : Nat := 3

/-- Session failure counters `action:method → count`, modelled as a total
function with default 0 (the dict is only read via `get` and bumped). -/
def FailCounts : Type := String × String → Nat

def FailCounts.zero : FailCounts := fun _ => 0

def countOf (c : FailCounts) (action method : String) : Nat := c (action, method)

/-- `_record_failure`. -/
def recordFailure (action method : String) (c : FailCounts) : FailCounts :=
  fun k => if k = (action, method) then c k + 1 else c k

/-- Stable insertion used to model Python's stable `list.sort(key=...)`:
the new element goes after every already-placed element whose key is `≤`
its own, so elements with equal keys keep their original order. -/
def insertStable {α : Type} (key : α → Nat) (x : α) : List α → List α
  | [] => [x]
  | y :: ys => if key y ≤ key x then y :: insertStable key x ys
               else x :: y :: ys

/-- Python's stable ascending `list.sort(key=...)`. -/
def pySort {α : Type} (key : α → Nat) (l : List α) : List α :=
  l.foldl (fun acc x => insertStable key x acc) []

/-- `RetryPolicy.get_fallback_chain`: static chain minus the failed
method, stably sorted by session failure count. -/
def getFallbackChain (action current : String) (c : FailCounts) : List String :=
  let baseline := dictGet METHOD_PRIORITY action DEFAULT_PRIORITY
  let candidates := baseline.filter (fun m => m ≠ current)
  pySort (fun m => countOf c action m) candidates

/-- Level 1 of `execute_with_retry`: up to `max_attempts` calls of the
step's own method; returns the successful method (the `ActionResult` is
abstracted to the method that produced it), the updated counters, and the
chronological list of methods attempted. -/
def retryLevel1 (fn : Step → Bool) (step : Step) (action m : String) :
    Nat → FailCounts → Option String × FailCounts × List String
  | 0, c => (none, c, [])
  | attempts + 1, c =>
    if fn { step with method := m } then (some m, c, [m])
    else
      let c := recordFailure action m c
      let r := retryLevel1 fn step action m attempts c
      (r.1, r.2.1, m :: r.2.2)

/-- Level 2 of `execute_with_retry`: walk the dynamic fallback chain,
skipping methods already demoted (3+ session failures), one try each. -/
def retryLevel2 (fn : Step → Bool) (step : Step) (action : String) :
    List String → FailCounts → Option String × FailCounts × List String
  | [], c => (none, c, [])
  | fb :: rest, c =>
    if FAILURE_DEMOTION_THRESHOLD ≤ countOf c action fb then
      retryLevel2 fn step action rest c
    else if fn { step with method := fb } then (some fb, c, [fb])
    else
      let c := recordFailure action fb c
      let r := retryLevel2 fn step action rest c
      (r.1, r.2.1, fb :: r.2.2)

def SINGLE_METHOD_ACTIONS : List String :=
  ["run_command", "set_volume", "set_brightness", "open_terminal"]

/-- `RetryPolicy.execute_with_retry` (backoff sleeps and jitter are
timing-only and not modelled; an exception from `fn` is a failed call, so
`fn` returning `false` covers it). -/
def executeWithRetry (maxAttempts : Nat) (fn : Step → Bool) (step : Step)
    (c : FailCounts) : Option String × FailCounts × List String :=
  let action := step.action
  let m := step.method
  match retryLevel1 fn step action m maxAttempts c with
  | (some r, c, t1) => (some r, c, t1)
  | (none, c, t1) =>
    let fallbacks := getFallbackChain action m c
    match retryLevel2 fn step action fallbacks c with
    | (some r, c2, t2) => (some r, c2, t1 ++ t2)
    | (none, c2, t2) =>
      if step.action ∈ SINGLE_METHOD_ACTIONS then
        if fn { step with method := "system" } then
          (some "system", c2, t1 ++ t2 ++ ["system"])
        else (none, c2, t1 ++ t2 ++ ["system"])
      else (none, c2, t1 ++ t2)

-- ══════════════════════════════════════════════════════════
-- utils/watchdog.py
-- ══════════════════════════════════════════════════════════

def HEARTBEAT_TIMEOUT_S : Rat := 15

/-- Watchdog state (thread plumbing and logging omitted; the monotonic
clock is the explicit `now` argument of the check functions). -/
structure WatchdogState where
  lastHeartbeat  : Rat
  stepLabel      : String
  abortRequested : Bool
  abortReason    : String
  eventsCount    : Nat
  lastEvent      : Option String
deriving Repr

/-- `heartbeat(step_label)`. -/
def Watchdog.heartbeat (now : Rat) (label : String) (w : WatchdogState) :
    WatchdogState :=
  { w with lastHeartbeat := now,
           stepLabel := if label ≠ "" then label else w.stepLabel }

/-- `_fire`: bump event stats; the alert delivered to the registered
callback is returned to the caller. -/
def Watchdog.fire (event msg : String) (w : WatchdogState) :
    WatchdogState × Option (String × String) :=
  ({ w with eventsCount := w.eventsCount + 1, lastEvent := some event },
   some (event, msg))

/-- `_check_heartbeat`: if the pulse is older than the timeout, set the
abort flag (never touch the thread), fire the alert, reset the clock. -/
def Watchdog.checkHeartbeat (now : Rat) (w : WatchdogState) :
    WatchdogState × Option (String × String) :=
  let age := now - w.lastHeartbeat
  if age > HEARTBEAT_TIMEOUT_S then
    let msg := "Heartbeat timeout: " ++ toString age ++
               "s since last pulse. Step: '" ++ w.stepLabel ++ "'"
    Watchdog.fire "heartbeat_timeout" msg
      { w with abortRequested := true, abortReason := msg, lastHeartbeat := now }
  else (w, none)

/-- `_check_processes`: fires process-dead / window-crash events for the
given findings but leaves the abort flag alone. -/
def Watchdog.checkProcesses (deadProcs : List String) (windowCrash : Bool)
    (w : WatchdogState) : WatchdogState :=
  let w := deadProcs.foldl
    (fun acc p => (Watchdog.fire "process_dead" ("Monitored process died: " ++ p) acc).1) w
  if windowCrash then
    (Watchdog.fire "window_crash" "Window 'Not Responding' detected." w).1
  else w

/-- `_check_resources`: CPU/memory pressure is logged as a warning only —
no event is fired and no state changes. -/
def Watchdog.checkResources (_cpu _memMb : Rat) (w : WatchdogState) :
    WatchdogState := w

/-- `Orchestrator._on_watchdog_alert`: only a heartbeat timeout sets the
orchestrator abort flag. -/
def onWatchdogAlert (event : String) (abort : Bool) : Bool :=
  if event = "heartbeat_timeout" then true else abort

-- ══════════════════════════════════════════════════════════
-- core/execution_context.py
-- ══════════════════════════════════════════════════════════

inductive ExecMode where
  | LIVE | DRY_RUN | SAFE_MODE
deriving DecidableEq, Repr

def SAFE_ACTIONS : List String :=
  ["verify_window", "focus_window", "get_text",
   "wait_for_element", "scroll", "set_volume", "set_brightness"]

def BLOCKED_IN_SAFE : List String :=
  ["run_command", "close_window", "type_text", "click_button"]

/-- `ExecutionContext.can_execute` (dry-run logging and blocked counters
omitted). -/
def canExecute (mode : ExecMode) (step : Step) : Bool :=
  match mode with
  | ExecMode.LIVE => true
  | ExecMode.DRY_RUN => false
  | ExecMode.SAFE_MODE =>
    if step.action ∈ BLOCKED_IN_SAFE then false
    else if step.action ∉ SAFE_ACTIONS then false
    else true

-- ══════════════════════════════════════════════════════════
-- core/rollback_manager.py
-- ══════════════════════════════════════════════════════════

/-- `RollbackEntry` as registered by `push` (bookkeeping flags are folded
into the execution result). -/
structure RollbackEntry where
  step   : RollbackStep
  source : Nat
deriving DecidableEq, Repr

/-- Result dict of `_execute_rollback`. -/
structure RollbackResult where
  action      : String
  value       : String
  source_step : Nat
  success     : Bool
  error       : String
deriving DecidableEq, Repr

/-- `_execute_rollback` with the system-actions executor abstracted to a
boolean oracle. -/
def executeRollback (rbExec : RollbackStep → Bool) (e : RollbackEntry) :
    RollbackResult :=
  let ok := rbExec e.step
  { action := e.step.action, value := e.step.value, source_step := e.source,
    success := ok, error := if ok then "" else "Rollback action returned False" }

/-- `RollbackManager.rollback_all`: execute every registered entry in LIFO
order; one failure never aborts the rest. -/
def rollbackAllExec (rbExec : RollbackStep → Bool) (stack : List RollbackEntry) :
    List RollbackResult :=
  stack.reverse.map (executeRollback rbExec)

/-- `RollbackManager.rollback_from`: execute the compensations selected by
`rollback_steps_after`, in the order that query returns them. -/
def rollbackFromExec (rbExec : RollbackStep → Bool) (g : StepGraph)
    (failedId : Nat) : List RollbackResult :=
  (g.rollbackStepsAfter failedId).map
    (fun s => executeRollback rbExec { step := s, source := s.forStep })

-- ══════════════════════════════════════════════════════════
-- core/orchestrator.py
-- ══════════════════════════════════════════════════════════

/-- The external collaborators the orchestrator drives, abstracted to
deterministic boolean oracles: the step executor, the verifier, the two
recovery routines, and the system-actions executor used for rollbacks. -/
structure Backend where
  exec          : Step → Bool
  verify        : Step → Bool
  recoverFull   : Step → Bool
  recoverVerify : Step → Bool
  rollbackExec  : RollbackStep → Bool

/-- `TaskResult` (wall-clock duration not modelled; the graph is carried
alongside in `RunOut`). -/
structure TaskResultM where
  success     : Bool
  task_name   : String
  command     : String
  steps_done  : Nat
  steps_total : Nat
  error       : String
deriving DecidableEq, Repr

/-- `_make_result`: success iff no error string and all steps done. -/
def makeResult (g : StepGraph) (taskName command error : String) : TaskResultM :=
  let p := g.progress
  { success := error = "" && p.1 = p.2, task_name := taskName,
    command := command, steps_done := p.1, steps_total := p.2, error := error }

/-- Orchestrator state threaded through one run: the task state machine,
the retry policy's session counters, the rollback stack, and the logical
clock standing in for `datetime.now()`. -/
structure OrchState where
  sm        : TaskState
  counts    : FailCounts
  rollbacks : List RollbackEntry
  clock     : Nat

/-- `RollbackManager.push` (ignores entries with an empty action). -/
def pushRollback (s : RollbackStep) (source : Nat) (stack : List RollbackEntry) :
    List RollbackEntry :=
  if s.action = "" then stack else stack ++ [{ step := s, source := source }]

/-- The rollback registration done right after a node succeeds
(`if node.rollback_action: self.rollback_mgr.push(...)`). -/
def rollbackPushOf (n : StepNode) (stack : List RollbackEntry) :
    List RollbackEntry :=
  match n.rollback_action with
  | some a => pushRollback
      { action := a, value := n.value, method := "system",
        forStep := n.step_id } n.step_id stack
  | none => stack

/-- `Orchestrator._verify`: `run_command` and the app/menu/search actions
are implicitly verified; everything else asks the verifier. -/
def verifyStep (B : Backend) (s : Step) : Bool :=
  if s.action = "run_command" then true
  else if s.action ∈ ["open_app", "open_terminal", "open_menu",
                      "search", "click_result"] then true
  else B.verify s

/-- Tail of `_exec_node` from the VERIFYING transition on: verify, retry
verification through recovery, then mark success and register the node's
rollback action. -/
def execNodeVerify (B : Backend) (node : StepNode) (methodUsed : String)
    (g : StepGraph) (st : OrchState) :
    Except String (Bool × String × StepGraph × OrchState) :=
  let step := node.toStepDict
  match transition st.sm TaskState.VERIFYING with
  | Except.error e => Except.error e
  | Except.ok sm =>
    if verifyStep B step || B.recoverVerify step then
      let g := g.updateNode node.step_id
        (StepNode.markSuccess st.clock methodUsed)
      let rollbacks := rollbackPushOf node st.rollbacks
      Except.ok (true, "", g,
        { st with sm := sm, clock := st.clock + 1, rollbacks := rollbacks })
    else
      let msg := "verification failed after recovery"
      let g := g.updateNode node.step_id (StepNode.markFailed st.clock msg)
      match transition sm TaskState.FAILED with
      | Except.error e => Except.error e
      | Except.ok sm2 =>
        Except.ok (false, msg, g, { st with sm := sm2, clock := st.clock + 1 })

/-- `_exec_node`: EXECUTING transition, `mark_running`, retry policy,
classification plus full-reset recovery on total failure, then the verify
tail.  The returned string is the node's error text when the bool is
false. -/
def execNode (B : Backend) (node : StepNode) (g : StepGraph) (st : OrchState) :
    Except String (Bool × String × StepGraph × OrchState) :=
  let step := node.toStepDict
  match transition st.sm TaskState.EXECUTING with
  | Except.error e => Except.error e
  | Except.ok sm1 =>
    let g := g.updateNode node.step_id (StepNode.markRunning st.clock)
    let st := { st with sm := sm1, clock := st.clock + 1 }
    let r := executeWithRetry 3 B.exec step st.counts
    let st := { st with counts := r.2.1 }
    match r.1 with
    | some methodUsed => execNodeVerify B node methodUsed g st
    | none =>
      let cls := classify "executor returned None or False" node.action node.method
      match transition st.sm TaskState.RECOVERING with
      | Except.error e => Except.error e
      | Except.ok sm2 =>
        if B.recoverFull step then
          execNodeVerify B node "recovery" g { st with sm := sm2 }
        else
          let msg := cls.error_class.value ++ ": all retries exhausted"
          let g := g.updateNode node.step_id (StepNode.markFailed st.clock msg)
          match transition sm2 TaskState.FAILED with
          | Except.error e => Except.error e
          | Except.ok sm3 =>
            Except.ok (false, msg, g,
              { st with sm := sm3, clock := st.clock + 1 })

/-- The `for node in ready:` loop of `_exec_graph`: per node, the watchdog
abort check, the execution-mode gate, then `_exec_node`; a failure or an
abort returns a result early (`some`). -/
def forReady (B : Backend) (mode : ExecMode) (abort : Bool)
    (abortReason : String) (taskName : String) :
    List Nat → StepGraph → OrchState →
    Except String (StepGraph × OrchState × Option TaskResultM)
  | [], g, st => Except.ok (g, st, none)
  | nid :: rest, g, st =>
    match g.getNode nid with
    | none => Except.error "ready node vanished"
    | some node =>
      if abort then
        let g := g.updateNode nid (StepNode.markFailed st.clock "Watchdog abort")
        let failedError := if abortReason ≠ "" then abortReason else "Watchdog abort"
        match transition st.sm TaskState.FAILED with
        | Except.error e => Except.error e
        | Except.ok sm =>
          Except.ok (g, { st with sm := sm, clock := st.clock + 1 },
                     some (makeResult g taskName "" failedError))
      else if !canExecute mode node.toStepDict then
        let g := g.updateNode nid (StepNode.markSkipped "blocked by exec_context")
        forReady B mode abort abortReason taskName rest g st
      else
        match execNode B node g st with
        | Except.error e => Except.error e
        | Except.ok (true, _, g, st) =>
          forReady B mode abort abortReason taskName rest g st
        | Except.ok (false, msg, g, st) =>
          Except.ok (g, st, some (makeResult g taskName "" msg))

/-- `_exec_graph`: iterate the execution frontier until it is empty or a
node fails.  The `while True` loop is fuelled; each completed iteration
retires at least one PENDING node, so the fuel passed by `runModel` can
never run out. -/
def execGraph (B : Backend) (mode : ExecMode) (abort : Bool)
    (abortReason : String) :
    Nat → StepGraph → OrchState →
    Except String (TaskResultM × StepGraph × OrchState)
  | 0, _, _ => Except.error "loop fuel exhausted"
  | fuel + 1, g, st =>
    let ready := g.pendingNodes
    if ready = [] then
      let p := g.progress
      Except.ok (makeResult g g.task_name ""
                   (if p.1 = p.2 then "" else "incomplete"), g, st)
    else
      match forReady B mode abort abortReason g.task_name
              (ready.map (fun n => n.step_id)) g st with
      | Except.error e => Except.error e
      | Except.ok (g, st, some res) => Except.ok (res, g, st)
      | Except.ok (g, st, none) =>
        if g.hasFailed then
          let err := match g.failedNodes.head? with
                     | some n => n.error
                     | none => ""
          Except.ok (makeResult g g.task_name "" err, g, st)
        else execGraph B mode abort abortReason fuel g st

/-- Everything `run()` returns: the `TaskResult`, the graph attached to
it, the state machine's state after the final `force_reset`, the rollback
results, and the surviving session counters. -/
structure RunOut where
  result          : TaskResultM
  graph           : StepGraph
  finalState      : TaskState
  rollbackResults : List RollbackResult
  counts          : FailCounts

/-- `Orchestrator.run` from the PLANNED transition on, for a plan already
produced by the external planner (audit, caching, resource-pressure
delays and the watchdog thread itself are external side effects; the
watchdog's abort flag and reason enter as parameters). -/
def runModel (B : Backend) (mode : ExecMode) (abort : Bool)
    (abortReason : String) (counts0 : FailCounts) (plan : Plan) :
    Except String RunOut :=
  match transition TaskState.INIT TaskState.PLANNED with
  | Except.error e => Except.error e
  | Except.ok sm =>
    if mode = ExecMode.DRY_RUN then
      match transition sm TaskState.SUCCESS with
      | Except.error e => Except.error e
      | Except.ok sm2 =>
        match transition sm2 TaskState.INIT with
        | Except.error e => Except.error e
        | Except.ok sm3 =>
          Except.ok { result := { success := true, task_name := plan.task,
                                  command := "", steps_done := 0,
                                  steps_total := plan.steps.length,
                                  error := "dry_run: no actions executed" },
                      graph := { nodes := [], task_name := plan.task,
                                 frozen := false },
                      finalState := sm3, rollbackResults := [],
                      counts := counts0 }
    else
      match fromPlan plan with
      | Except.error e => Except.error e
      | Except.ok graph =>
        let graph := graph.freeze
        match execGraph B mode abort abortReason (graph.nodes.length + 1)
                graph { sm := sm, counts := counts0, rollbacks := [],
                        clock := 0 } with
        | Except.error e => Except.error e
        | Except.ok (result, graph, st) =>
          if result.success then
            match transition st.sm TaskState.SUCCESS with
            | Except.error e => Except.error e
            | Except.ok sm2 =>
              Except.ok { result := result, graph := graph,
                          finalState := forceReset sm2,
                          rollbackResults := [], counts := st.counts }
          else
            match (if st.sm ∈ [TaskState.FAILED, TaskState.CANCELLED]
                   then Except.ok st.sm
                   else transition st.sm TaskState.FAILED) with
            | Except.error e => Except.error e
            | Except.ok sm2 =>
              Except.ok { result := result, graph := graph,
                          finalState := forceReset sm2,
                          rollbackResults :=
                            rollbackAllExec B.rollbackExec st.rollbacks,
                          counts := st.counts }

-- ══════════════════════════════════════════════════════════
-- Concrete fixtures (used by witnesses and counterexamples)
-- ══════════════════════════════════════════════════════════

/-- A node that already completed successfully. -/
def doneNode1 : StepNode :=
  { step_id := 1, seq_num := 1, action := "open_app", value := "firefox",
    method := "system", depends_on := [], timeout_s := 12, max_retries := 2,
    rollback_action := some "close_window", status := StepStatus.SUCCESS,
    attempts := 1, error := "", started_at := some 0, finished_at := some 1,
    method_used := "system" }

/-- A node that failed. -/
def failedNode2 : StepNode :=
  { step_id := 2, seq_num := 2, action := "type_text", value := "hi",
    method := "accessibility", depends_on := [1], timeout_s := 5,
    max_retries := 2, rollback_action := none, status := StepStatus.FAILED,
    attempts := 3, error := "boom", started_at := some 2, finished_at := some 3,
    method_used := "" }

/-- A node after the failure point that also completed successfully (as
after a partial replan). -/
def doneNode3 : StepNode :=
  { step_id := 3, seq_num := 3, action := "open_app", value := "gedit",
    method := "system", depends_on := [2], timeout_s := 12, max_retries := 2,
    rollback_action := some "close_window", status := StepStatus.SUCCESS,
    attempts := 1, error := "", started_at := some 4, finished_at := some 5,
    method_used := "system" }

/-- Graph with a SUCCESS step before and a SUCCESS step after failed
step 2. -/
def rollbackCxGraph : StepGraph :=
  { nodes := [doneNode1, failedNode2, doneNode3], task_name := "cx",
    frozen := true }

/-- The compensation dict built for a rolled-back node (reformulation
helper for stating the amended C4). -/
def nodeComp (n : StepNode) : RollbackStep :=
  { action := n.rollback_action.getD "", value := n.value,
    method := "system", forStep := n.step_id }

/-- Nodes eligible for compensation: SUCCESS with a rollback action. -/
def compCandidate (n : StepNode) : Bool :=
  n.status = StepStatus.SUCCESS && n.rollback_action.isSome

/-- A backend whose every call succeeds. -/
def allOkBackend : Backend :=
  { exec := fun _ => true, verify := fun _ => true,
    recoverFull := fun _ => true, recoverVerify := fun _ => true,
    rollbackExec := fun _ => true }

/-- A backend on which every `type_text` execution attempt fails (on any
method) and full-reset recovery fails, while everything else succeeds. -/
def failStep2Backend : Backend :=
  { exec := fun s => !(s.action = "type_text"), verify := fun _ => true,
    recoverFull := fun _ => false, recoverVerify := fun _ => false,
    rollbackExec := fun _ => true }

/-- The spec's example plan: one `run_command` step. -/
def lockPlan : Plan :=
  { task := "lock_screen",
    steps := [{ action := "run_command", value := "loginctl lock-session",
                method := "system" }] }

/-- A watchdog that has not pulsed since time 0 and has nothing pending. -/
def idleWatchdog : WatchdogState :=
  { lastHeartbeat := 0, stepLabel := "step1", abortRequested := false,
    abortReason := "", eventsCount := 0, lastEvent := none }

/-- The step used for the PERMISSION_DENIED retry experiment. -/
def permStep : Step :=
  { action := "find_and_click", value := "OK", method := "accessibility" }

/-- Counter state after `k` recorded failures of `(action, method)`
(reformulation helper for stating retry-loop results). -/
def bumpCounts (action method : String) (k : Nat) (c : FailCounts) : FailCounts :=
  fun kk => if kk = (action, method) then c kk + k else c kk

/-- `[k, k-1, ..., 1]`: the DFS visited list produced by walking a chain
graph in order (helper for the `from_plan` validation proof). -/
def countdown : Nat → List Nat
  | 0 => []
  | k + 1 => (k + 1) :: countdown k

/-- `[i+1, i+2, ..., i+len]`: the ids of the nodes built from position
`i` on (helper for the `from_plan` validation proof). -/
def idsFrom (i : Nat) : Nat → List Nat
  | 0 => []
  | len + 1 => (i + 1) :: idsFrom (i + 1) len

/-- The graph `from_plan` assembles before validating (helper name so
the validation lemmas stay readable). -/
def chainGraph (steps : List Step) (tn : String) (fr : Bool) : StepGraph :=
  { nodes := buildNodes 0 none steps, task_name := tn, frozen := fr }

-- ══════════════════════════════════════════════════════════
-- Theorems
-- ══════════════════════════════════════════════════════════

/-- C9: for every StepNode whose status is SUCCESS, `mark_running` is a
no-op — status, attempt count and both timestamps are unchanged, at any
clock reading. -/
theorem markRunning_idempotent_on_success (n : StepNode) (now : Nat)
    (h : n.status = StepStatus.SUCCESS) : n.markRunning now = n := by
  simp [StepNode.markRunning, h]

/-- Witness for C9: a concrete SUCCESS node re-entering `mark_running`. -/
theorem markRunning_idempotent_on_success_witness :
    doneNode1.status = StepStatus.SUCCESS ∧ doneNode1.markRunning 7 = doneNode1 :=
  ⟨rfl, markRunning_idempotent_on_success doneNode1 7 rfl⟩

/-- C6: `freeze` sets the frozen flag, and on a frozen graph both guarded
structural mutations (adding or removing a node) raise GraphMutationError
— in particular no updated graph is produced, so the node set is
unchanged. -/
theorem frozen_graph_mutation_rejected :
    (∀ g : StepGraph, g.freeze.frozen = true) ∧
    (∀ (g : StepGraph) (n : StepNode) (i : Nat), g.frozen = true →
      g.addNode n = Except.error
        ("Cannot modify frozen StepGraph during execution. " ++
         "Create a new graph to replan.") ∧
      g.removeNode i = Except.error
        ("Cannot modify frozen StepGraph during execution. " ++
         "Create a new graph to replan.")) := by
  constructor
  · intro g; rfl
  · intro g n i h
    constructor
    · simp only [StepGraph.addNode, StepGraph.assertMutable, h]
      rfl
    · simp only [StepGraph.removeNode, StepGraph.assertMutable, h]
      rfl

/-- Witness for C6: mutating the concrete frozen graph is rejected. -/
theorem frozen_graph_mutation_rejected_witness :
    rollbackCxGraph.frozen = true ∧
    rollbackCxGraph.addNode doneNode1 = Except.error
      ("Cannot modify frozen StepGraph during execution. " ++
       "Create a new graph to replan.") :=
  ⟨rfl, (frozen_graph_mutation_rejected.2 rollbackCxGraph doneNode1 0 rfl).1⟩

/-- Counterexample to C4 as stated: with step 2 failed, the partial
rollback produces the compensation of step 1 — which completed BEFORE the
failure point — and produces nothing for step 3, the only step after it. -/
theorem rollback_steps_after_counterexample :
    rollbackCxGraph.rollbackStepsAfter 2 =
      [{ action := "close_window", value := "firefox", method := "system",
         forStep := 1 }] ∧
    (rollbackCxGraph.rollbackStepsAfter 2).all (fun s => s.forStep ≤ 2) = true := by
  constructor <;> rfl

/-- Once the `found` flag is on, `rollback_steps_after`'s loop keeps
every remaining SUCCESS node that has a rollback action. -/
theorem rollbackAfterGo_found (failedId : Nat) (l : List StepNode) :
    StepGraph.rollbackAfterGo failedId l true =
      (l.filter compCandidate).map nodeComp := by
  induction l with
  | nil => rfl
  | cons n rest ih =>
    simp only [StepGraph.rollbackAfterGo, Bool.true_and, Bool.true_or,
      List.filter_cons]
    cases hs : compCandidate n with
    | true =>
      have hs' : (decide (n.status = StepStatus.SUCCESS) &&
          n.rollback_action.isSome) = true := by simpa [compCandidate] using hs
      simp [hs', hs, ih, nodeComp]
    | false =>
      have hs' : (decide (n.status = StepStatus.SUCCESS) &&
          n.rollback_action.isSome) = false := by simpa [compCandidate] using hs
      simp [hs', hs, ih]

/-- C4 (amended): `rollback_steps_after` yields the compensations of the
SUCCESS steps at or before the failure point — the reverse iteration's
`found` flag turns on at the failed node and stays on for all earlier
nodes — in reverse node order; `rollback_from` executes exactly that list
in that order. -/
theorem rollback_from_rolls_back_completed_prefix (g : StepGraph)
    (failedId : Nat) (rbE : RollbackStep → Bool) :
    g.rollbackStepsAfter failedId =
      ((g.nodes.reverse.dropWhile (fun n => n.step_id ≠ failedId)).filter
        compCandidate).map nodeComp ∧
    rollbackFromExec rbE g failedId =
      (g.rollbackStepsAfter failedId).map
        (fun s => executeRollback rbE { step := s, source := s.forStep }) := by
  refine ⟨?_, rfl⟩
  show StepGraph.rollbackAfterGo failedId g.nodes.reverse false = _
  generalize g.nodes.reverse = l
  induction l with
  | nil => rfl
  | cons n rest ih =>
    by_cases hf : n.step_id = failedId
    · have h1 : decide (n.step_id ≠ failedId) = false := by simp [hf]
      have h2 : decide (n.step_id = failedId) = true := by simp [hf]
      have lhs_eq : StepGraph.rollbackAfterGo failedId (n :: rest) false =
          StepGraph.rollbackAfterGo failedId (n :: rest) true := by
        simp only [StepGraph.rollbackAfterGo, h2, Bool.false_or, Bool.true_or]
      rw [lhs_eq, rollbackAfterGo_found]
      simp [List.dropWhile_cons, h1, hf]
    · have h1 : decide (n.step_id ≠ failedId) = true := by simp [hf]
      have h2 : decide (n.step_id = failedId) = false := by simp [hf]
      simp only [StepGraph.rollbackAfterGo, List.dropWhile_cons, h1, h2,
        Bool.false_or, Bool.false_eq_true, if_false, if_true] at ih ⊢
      exact ih

/-- C1: the error "permission denied" is classified PERMISSION_DENIED
with retry budget 0 (`should_retry` false), yet `execute_with_retry`
never consults that budget: with an executor failing on every attempt it
still attempts the step's own method `max_attempts = 3` times — consuming
2 retries, not 0 — before escalating to the fallback chain. -/
theorem permission_denied_budget_ignored_by_retry :
    (classify "permission denied" "find_and_click" "accessibility").error_class =
      ErrorClass.PERMISSION_DENIED ∧
    (classify "permission denied" "find_and_click" "accessibility").retry_budget = 0 ∧
    (classify "permission denied" "find_and_click" "accessibility").shouldRetry = false ∧
    (executeWithRetry 3 (fun _ => false) permStep FailCounts.zero).2.2 =
      ["accessibility", "accessibility", "accessibility", "browser", "cv"] ∧
    ((executeWithRetry 3 (fun _ => false) permStep FailCounts.zero).2.2.count
      "accessibility") = 3 ∧
    (executeWithRetry 3 (fun _ => false) permStep FailCounts.zero).1 = none := by
  refine ⟨?_, ?_, ?_, ?_, ?_, ?_⟩ <;> rfl

-- ── Stable-sort lemmas (for the dynamic fallback chain) ────

theorem insertStable_perm {α : Type} (key : α → Nat) (x : α) (l : List α) :
    List.Perm (insertStable key x l) (x :: l) := by
  induction l with
  | nil => simp [insertStable]
  | cons y ys ih =>
    simp only [insertStable]
    by_cases hk : key y ≤ key x
    · rw [if_pos hk]
      exact (ih.cons y).trans (List.Perm.swap x y ys)
    · rw [if_neg hk]

theorem insertStable_pairwise {α : Type} (key : α → Nat) (x : α) (l : List α)
    (h : l.Pairwise (fun a b => key a ≤ key b)) :
    (insertStable key x l).Pairwise (fun a b => key a ≤ key b) := by
  induction l with
  | nil => simp [insertStable]
  | cons y ys ih =>
    rw [List.pairwise_cons] at h
    obtain ⟨hy, hys⟩ := h
    simp only [insertStable]
    by_cases hk : key y ≤ key x
    · rw [if_pos hk, List.pairwise_cons]
      refine ⟨?_, ih hys⟩
      intro z hz
      have hz' : z ∈ x :: ys := (insertStable_perm key x ys).mem_iff.mp hz
      rcases List.mem_cons.mp hz' with rfl | hzys
      · exact hk
      · exact hy z hzys
    · rw [if_neg hk, List.pairwise_cons]
      have hxy : key x ≤ key y := Nat.le_of_lt (Nat.lt_of_not_le hk)
      refine ⟨?_, List.pairwise_cons.mpr ⟨hy, hys⟩⟩
      intro z hz
      rcases List.mem_cons.mp hz with rfl | hzys
      · exact hxy
      · exact Nat.le_trans hxy (hy z hzys)

theorem insertStable_filter {α : Type} (key : α → Nat) (c : Nat) (x : α)
    (l : List α) (h : l.Pairwise (fun a b => key a ≤ key b)) :
    (insertStable key x l).filter (fun z => key z = c) =
      if key x = c then l.filter (fun z => key z = c) ++ [x]
      else l.filter (fun z => key z = c) := by
  induction l with
  | nil =>
    simp only [insertStable, List.filter_nil]
    by_cases hx : key x = c
    · simp [hx]
    · simp [hx]
  | cons y ys ih =>
    rw [List.pairwise_cons] at h
    obtain ⟨hy, hys⟩ := h
    simp only [insertStable]
    by_cases hk : key y ≤ key x
    · rw [if_pos hk]
      rw [List.filter_cons, List.filter_cons]
      by_cases hyc : key y = c
      · simp only [hyc, decide_eq_true_eq, if_pos, ih hys]
        by_cases hx : key x = c
        · simp [hx, hyc]
        · simp [hx, hyc]
      · simp only [decide_eq_true_eq, hyc, ih hys]
        by_cases hx : key x = c
        · simp [hx, hyc]
        · simp [hx, hyc]
    · rw [if_neg hk]
      have hxy : key x < key y := Nat.lt_of_not_le hk
      rw [List.filter_cons]
      by_cases hx : key x = c
      · have hnil : (y :: ys).filter (fun z => key z = c) = [] := by
          rw [List.filter_eq_nil_iff]
          intro z hz
          rcases List.mem_cons.mp hz with rfl | hzys
          · simp only [decide_eq_true_eq]
            omega
          · have := hy z hzys
            simp only [decide_eq_true_eq]
            omega
        simp [hx, hnil]
      · simp [hx]

theorem pySortAux_perm {α : Type} (key : α → Nat) :
    ∀ (l acc : List α),
      List.Perm (l.foldl (fun a x => insertStable key x a) acc) (acc ++ l) := by
  intro l
  induction l with
  | nil => intro acc; simp
  | cons x xs ih =>
    intro acc
    have h1 := ih (insertStable key x acc)
    have h2 : List.Perm (insertStable key x acc ++ xs) ((x :: acc) ++ xs) :=
      (insertStable_perm key x acc).append_right xs
    have h3 : List.Perm ((x :: acc) ++ xs) (acc ++ x :: xs) := by
      simpa using List.perm_middle.symm
    rw [List.foldl_cons]
    exact h1.trans (h2.trans h3)

theorem pySortAux_pairwise {α : Type} (key : α → Nat) :
    ∀ (l acc : List α), acc.Pairwise (fun a b => key a ≤ key b) →
      (l.foldl (fun a x => insertStable key x a) acc).Pairwise
        (fun a b => key a ≤ key b) := by
  intro l
  induction l with
  | nil => intro acc h; simpa
  | cons x xs ih =>
    intro acc h
    exact ih (insertStable key x acc) (insertStable_pairwise key x acc h)

theorem pySortAux_filter {α : Type} (key : α → Nat) (c : Nat) :
    ∀ (l acc : List α), acc.Pairwise (fun a b => key a ≤ key b) →
      (l.foldl (fun a x => insertStable key x a) acc).filter
          (fun z => key z = c) =
        acc.filter (fun z => key z = c) ++ l.filter (fun z => key z = c) := by
  intro l
  induction l with
  | nil => intro acc _; simp
  | cons x xs ih =>
    intro acc h
    rw [List.foldl_cons]
    rw [ih (insertStable key x acc) (insertStable_pairwise key x acc h)]
    rw [insertStable_filter key c x acc h]
    rw [List.filter_cons]
    by_cases hx : key x = c
    · simp [hx]
    · simp [hx]

theorem pySort_perm {α : Type} (key : α → Nat) (l : List α) :
    List.Perm (pySort key l) l := by
  simpa using pySortAux_perm key l []

theorem pySort_pairwise {α : Type} (key : α → Nat) (l : List α) :
    (pySort key l).Pairwise (fun a b => key a ≤ key b) :=
  pySortAux_pairwise key l [] List.Pairwise.nil

theorem pySort_filter {α : Type} (key : α → Nat) (c : Nat) (l : List α) :
    (pySort key l).filter (fun z => key z = c) =
      l.filter (fun z => key z = c) := by
  simpa using pySortAux_filter key c l [] List.Pairwise.nil

-- ── Retry-loop lemmas ──────────────────────────────────────

theorem dictGet_cases {α : Type} (l : List (String × α)) (k : String) (d : α) :
    dictGet l k d = d ∨ dictGet l k d ∈ l.map Prod.snd := by
  induction l with
  | nil => exact Or.inl rfl
  | cons p rest ih =>
    rw [dictGet]
    by_cases hk : k = p.1
    · right
      simp [hk]
    · rcases ih with h | h
      · left
        simpa [hk] using h
      · right
        simp only [List.map_cons, List.mem_cons]
        right
        simpa [hk] using h

theorem methodPriority_nodup (action : String) :
    (dictGet METHOD_PRIORITY action DEFAULT_PRIORITY).Nodup := by
  rcases dictGet_cases METHOD_PRIORITY action DEFAULT_PRIORITY with h | h
  · rw [h]
    decide
  · have hall : ∀ v ∈ METHOD_PRIORITY.map Prod.snd, v.Nodup := by decide
    exact hall _ h

theorem getFallbackChain_nodup (action current : String) (c : FailCounts) :
    (getFallbackChain action current c).Nodup := by
  have h1 : ((dictGet METHOD_PRIORITY action DEFAULT_PRIORITY).filter
      (fun m => m ≠ current)).Nodup :=
    List.Nodup.filter _ (methodPriority_nodup action)
  exact ((pySort_perm (fun m => countOf c action m) _).nodup_iff).mpr h1

theorem retryLevel1_allfail (fn : Step → Bool) (step : Step) (a m : String)
    (hfn : ∀ mv, fn { step with method := mv } = false) :
    ∀ (k : Nat) (c : FailCounts),
      retryLevel1 fn step a m k c = (none, bumpCounts a m k c, List.replicate k m) := by
  intro k
  induction k with
  | zero =>
    intro c
    have hb : bumpCounts a m 0 c = c := by
      funext kk
      simp [bumpCounts]
    rw [hb]
    rfl
  | succ k ih =>
    intro c
    rw [retryLevel1, hfn m]
    simp only [Bool.false_eq_true, if_false, ih (recordFailure a m c)]
    have hb : bumpCounts a m k (recordFailure a m c) = bumpCounts a m (k + 1) c := by
      funext kk
      by_cases hk : kk = (a, m)
      · simp only [bumpCounts, recordFailure, hk, if_pos]
        omega
      · simp [bumpCounts, recordFailure, hk]
    rw [hb]
    rfl

theorem retryLevel2_allfail (fn : Step → Bool) (step : Step) (a : String)
    (hfn : ∀ mv, fn { step with method := mv } = false) :
    ∀ (fbs : List String) (c : FailCounts), fbs.Nodup →
      (retryLevel2 fn step a fbs c).1 = none ∧
      (retryLevel2 fn step a fbs c).2.2 =
        fbs.filter (fun x => countOf c a x < FAILURE_DEMOTION_THRESHOLD) := by
  intro fbs
  induction fbs with
  | nil => intro c _; exact ⟨rfl, rfl⟩
  | cons fb rest ih =>
    intro c hnd
    rw [List.nodup_cons] at hnd
    obtain ⟨hfb, hnd⟩ := hnd
    by_cases hsk : FAILURE_DEMOTION_THRESHOLD ≤ countOf c a fb
    · have hlt : decide (countOf c a fb < FAILURE_DEMOTION_THRESHOLD) = false := by
        simp
        omega
      rw [retryLevel2, if_pos hsk, List.filter_cons, hlt]
      simpa using ih c hnd
    · have hlt : decide (countOf c a fb < FAILURE_DEMOTION_THRESHOLD) = true := by
        simp
        omega
      rw [retryLevel2, if_neg hsk, hfn fb]
      simp only [Bool.false_eq_true, if_false]
      have hsame : rest.filter
          (fun x => countOf (recordFailure a fb c) a x < FAILURE_DEMOTION_THRESHOLD) =
          rest.filter (fun x => countOf c a x < FAILURE_DEMOTION_THRESHOLD) := by
        apply List.filter_congr
        intro x hx
        have hne : x ≠ fb := fun hxe => hfb (hxe ▸ hx)
        have hco : countOf (recordFailure a fb c) a x = countOf c a x := by
          simp only [countOf, recordFailure]
          have hpne : (a, x) ≠ (a, fb) := by
            intro hp
            exact hne (congrArg Prod.snd hp)
          simp [hpne]
        simp [hco]
      obtain ⟨ih1, ih2⟩ := ih (recordFailure a fb c) hnd
      constructor
      · simpa using ih1
      · rw [List.filter_cons, hlt]
        simp only [if_pos]
        show fb :: (retryLevel2 fn step a rest (recordFailure a fb c)).2.2 = _
        rw [ih2, hsame]

/-- C8: the dynamic fallback chain after retry exhaustion is the static
priority list for the action minus the just-failed method, stably
re-sorted ascending by the session failure counts (ties keep the static
order), and with an always-failing executor the methods attempted at
level 2 are exactly that chain with the 3+-failure ("demoted") methods
skipped, after the 3 level-1 attempts of the step's own method. -/
theorem fallback_chain_dynamic_order :
    (∀ (action m : String) (c : FailCounts),
      (getFallbackChain action m c).Pairwise
        (fun x y => countOf c action x ≤ countOf c action y) ∧
      List.Perm (getFallbackChain action m c)
        ((dictGet METHOD_PRIORITY action DEFAULT_PRIORITY).filter
          (fun x => x ≠ m)) ∧
      (∀ cnt : Nat,
        (getFallbackChain action m c).filter
            (fun x => countOf c action x = cnt) =
          ((dictGet METHOD_PRIORITY action DEFAULT_PRIORITY).filter
            (fun x => x ≠ m)).filter (fun x => countOf c action x = cnt))) ∧
    (∀ (step : Step) (c0 : FailCounts),
      step.action ∉ SINGLE_METHOD_ACTIONS →
      (executeWithRetry 3 (fun _ => false) step c0).1 = none ∧
      (executeWithRetry 3 (fun _ => false) step c0).2.2 =
        List.replicate 3 step.method ++
          (getFallbackChain step.action step.method
              (bumpCounts step.action step.method 3 c0)).filter
            (fun x =>
              countOf (bumpCounts step.action step.method 3 c0) step.action x <
                FAILURE_DEMOTION_THRESHOLD)) := by
  constructor
  · intro action m c
    refine ⟨pySort_pairwise _ _, pySort_perm _ _, fun cnt => pySort_filter _ cnt _⟩
  · intro step c0 hna
    have hfn : ∀ mv, (fun (_ : Step) => false) { step with method := mv } = false :=
      fun _ => rfl
    have h1 := retryLevel1_allfail (fun _ => false) step step.action step.method hfn 3 c0
    have h2 := retryLevel2_allfail (fun _ => false) step step.action hfn
      (getFallbackChain step.action step.method (bumpCounts step.action step.method 3 c0))
      (bumpCounts step.action step.method 3 c0)
      (getFallbackChain_nodup step.action step.method _)
    rcases e : retryLevel2 (fun _ => false) step step.action
        (getFallbackChain step.action step.method
          (bumpCounts step.action step.method 3 c0))
        (bumpCounts step.action step.method 3 c0) with ⟨r1, c2, t2⟩
    rw [e] at h2
    obtain ⟨hr1, ht2⟩ := h2
    simp only at hr1 ht2
    subst hr1
    simp only [executeWithRetry, h1, e]
    rw [if_neg hna]
    exact ⟨rfl, by rw [ht2]⟩

/-- Witness for C8: concrete chain for `find_and_click` after its
`accessibility` method failed, with fresh session counters. -/
theorem fallback_chain_dynamic_order_witness :
    (getFallbackChain "find_and_click" "accessibility" FailCounts.zero).Pairwise
      (fun x y => countOf FailCounts.zero "find_and_click" x ≤
        countOf FailCounts.zero "find_and_click" y) ∧
    permStep.action ∉ SINGLE_METHOD_ACTIONS ∧
    (executeWithRetry 3 (fun _ => false) permStep FailCounts.zero).1 = none :=
  ⟨(fallback_chain_dynamic_order.1 "find_and_click" "accessibility"
      FailCounts.zero).1,
   by decide,
   (fallback_chain_dynamic_order.2 permStep FailCounts.zero (by decide)).1⟩

-- ── `from_plan` validation lemmas ──────────────────────────

theorem countdown_mem (j : Nat) : ∀ k, j ∈ countdown k ↔ 1 ≤ j ∧ j ≤ k := by
  intro k
  induction k with
  | zero =>
    simp only [countdown, List.not_mem_nil, false_iff]
    omega
  | succ k ih =>
    simp only [countdown, List.mem_cons, ih]
    omega

theorem idsFrom_mem (j : Nat) : ∀ (len i : Nat),
    j ∈ idsFrom i len ↔ i + 1 ≤ j ∧ j ≤ i + len := by
  intro len
  induction len with
  | zero =>
    intro i
    simp only [idsFrom, List.not_mem_nil, false_iff]
    omega
  | succ len ih =>
    intro i
    simp only [idsFrom, List.mem_cons, ih]
    omega

theorem buildNodes_ids : ∀ (steps : List Step) (i : Nat) (prev : Option Nat),
    (buildNodes i prev steps).map (fun n => n.step_id) = idsFrom i steps.length := by
  intro steps
  induction steps with
  | nil => intro i prev; rfl
  | cons s rest ih =>
    intro i prev
    simp only [buildNodes, freshNode, List.map_cons, List.length_cons, idsFrom]
    rw [ih]

theorem buildNodes_shape : ∀ (steps : List Step) (i : Nat) (prev : Option Nat)
    (n : StepNode), n ∈ buildNodes i prev steps →
    (i + 1 ≤ n.step_id ∧ n.step_id ≤ i + steps.length) ∧
    n.depends_on = (if n.step_id = i + 1 then optList prev else [n.step_id - 1]) ∧
    n.status = StepStatus.PENDING := by
  intro steps
  induction steps with
  | nil => intro i prev n hn; simp [buildNodes] at hn
  | cons s rest ih =>
    intro i prev n hn
    simp only [buildNodes, List.mem_cons] at hn
    rcases hn with rfl | hn
    · refine ⟨⟨?_, ?_⟩, ?_, rfl⟩
      · simp [freshNode]
      · simp only [freshNode, List.length_cons]
        omega
      · simp [freshNode]
    · obtain ⟨⟨hlo, hhi⟩, hdep, hst⟩ := ih (i + 1) (some (i + 1)) n hn
      refine ⟨⟨by omega, by simp only [List.length_cons]; omega⟩, ?_, hst⟩
      have hne : n.step_id ≠ i + 1 := by omega
      rw [if_neg hne]
      by_cases he : n.step_id = i + 2
      · rw [he] at hdep ⊢
        simpa [optList] using hdep
      · rw [if_neg he] at hdep
        exact hdep

theorem buildNodes_find : ∀ (steps : List Step) (i : Nat) (prev : Option Nat)
    (j : Nat), i + 1 ≤ j → j ≤ i + steps.length →
    ∃ n, (buildNodes i prev steps).find? (fun nd => nd.step_id = j) = some n ∧
      n.step_id = j ∧ n.status = StepStatus.PENDING ∧
      n.depends_on = (if j = i + 1 then optList prev else [j - 1]) := by
  intro steps
  induction steps with
  | nil =>
    intro i prev j h1 h2
    simp only [List.length_nil] at h2
    omega
  | cons s rest ih =>
    intro i prev j h1 h2
    by_cases hj : j = i + 1
    · subst hj
      refine ⟨freshNode i prev s, ?_, rfl, rfl, ?_⟩
      · simp [buildNodes, freshNode, List.find?_cons]
      · simp only [if_pos rfl]
        rfl
    · have h1' : i + 2 ≤ j := by omega
      have h2' : j ≤ (i + 1) + rest.length := by
        simp [List.length_cons] at h2
        omega
      obtain ⟨n, hfind, hid, hst, hdep⟩ := ih (i + 1) (some (i + 1)) j h1' h2'
      refine ⟨n, ?_, hid, hst, ?_⟩
      · have hpred : (decide ((freshNode i prev s).step_id = j)) = false := by
          simp [freshNode]
          omega
        simp only [buildNodes, List.find?_cons, hpred]
        exact hfind
      · rw [if_neg hj]
        by_cases he : j = i + 2
        · rw [if_pos he] at hdep
          rw [hdep, he]
          rfl
        · rw [if_neg he] at hdep
          exact hdep

theorem dfsRun_chain_root (steps : List Step) (tn : String) (fr : Bool)
    (k fuel : Nat) (hk : k + 1 ≤ steps.length) (hfuel : 3 ≤ fuel) :
    dfsRun (chainGraph steps tn fr) fuel (Sum.inl (k + 1)) (countdown k) [] =
      Except.ok (countdown (k + 1)) := by
  obtain ⟨n, hfind, hid, hst, hdep⟩ :=
    buildNodes_find steps 0 none (k + 1) (by omega) (by omega)
  match fuel, hfuel with
  | f + 3, _ =>
    rw [dfsRun]
    have hget : (chainGraph steps tn fr).getNode (k + 1) = some n := hfind
    rw [hget]
    show dfsRun (chainGraph steps tn fr) (f + 2) (Sum.inr n.depends_on)
        ((k + 1) :: countdown k) [k + 1] = _
    rcases Nat.eq_zero_or_pos k with rfl | hkpos
    · rw [if_pos rfl] at hdep
      rw [hdep]
      rfl
    · rw [if_neg (by omega)] at hdep
      rw [hdep]
      have hksub : k + 1 - 1 = k := by omega
      rw [hksub]
      rw [dfsRun]
      have hmem : k ∈ (k + 1) :: countdown k := by
        simp only [List.mem_cons, countdown_mem]
        omega
      rw [if_pos hmem]
      have hnmem : k ∉ ([k + 1] : List Nat) := by
        simp only [List.mem_singleton]
        omega
      rw [if_neg hnmem]
      rfl

theorem validateRoots_chain (steps : List Step) (tn : String) (fr : Bool) :
    ∀ (len k fuel : Nat), k + len ≤ steps.length → 3 ≤ fuel →
    validateRoots (chainGraph steps tn fr) fuel (idsFrom k len) (countdown k) =
      Except.ok (countdown (k + len)) := by
  intro len
  induction len with
  | zero =>
    intro k fuel _ _
    rfl
  | succ len ih =>
    intro k fuel hlen hfuel
    rw [idsFrom, validateRoots]
    have hnot : (k + 1) ∉ countdown k := by
      simp only [countdown_mem]
      omega
    rw [if_neg hnot]
    rw [dfsRun_chain_root steps tn fr k fuel (by omega) hfuel]
    show validateRoots (chainGraph steps tn fr) fuel (idsFrom (k + 1) len)
        (countdown (k + 1)) = _
    rw [ih (k + 1) fuel (by omega) hfuel]
    have harith : k + 1 + len = k + (len + 1) := by omega
    rw [harith]

theorem validateGraph_chain (steps : List Step) (tn : String) (fr : Bool) :
    validateGraph (chainGraph steps tn fr) = Except.ok () := by
  rw [validateGraph]
  have hids : (chainGraph steps tn fr).nodes.map (fun n => n.step_id) =
      idsFrom 0 steps.length := buildNodes_ids steps 0 none
  have horphan : (chainGraph steps tn fr).nodes.find?
      (fun n => !n.depends_on.all
        (fun d => d ∈ (chainGraph steps tn fr).nodes.map (fun n => n.step_id))) =
      none := by
    rw [List.find?_eq_none]
    intro n hn
    obtain ⟨⟨hlo, hhi⟩, hdep, _⟩ := buildNodes_shape steps 0 none n hn
    have hmem : ∀ d ∈ n.depends_on,
        d ∈ (chainGraph steps tn fr).nodes.map (fun nd => nd.step_id) := by
      intro d hd
      rw [hdep] at hd
      by_cases h1 : n.step_id = 0 + 1
      · rw [if_pos h1] at hd
        simp [optList] at hd
      · rw [if_neg h1] at hd
        simp only [List.mem_singleton] at hd
        subst hd
        have hids' : (chainGraph steps tn fr).nodes.map (fun nd => nd.step_id) =
            idsFrom 0 steps.length := buildNodes_ids steps 0 none
        rw [hids', idsFrom_mem]
        omega
    simp [List.all_eq_true]
    intro d hd
    obtain ⟨nd, hnd, he⟩ := List.mem_map.mp (hmem d hd)
    exact ⟨nd, hnd, he⟩
  simp only [horphan]
  rw [hids]
  have hfuel : 3 ≤ dfsFuel (chainGraph steps tn fr) := by
    simp only [dfsFuel]
    omega
  have hloop := validateRoots_chain steps tn fr steps.length 0
    (dfsFuel (chainGraph steps tn fr)) (by omega) hfuel
  simp only [Nat.zero_add] at hloop
  have hcd : countdown 0 = [] := rfl
  rw [hcd] at hloop
  rw [hloop]

theorem chain_depRel_lt (steps : List Step) (a b : Nat)
    (h : depRel (buildNodes 0 none steps) a b) : b < a := by
  obtain ⟨n, hn, hid, hb⟩ := h
  obtain ⟨⟨hlo, _⟩, hdep, _⟩ := buildNodes_shape steps 0 none n hn
  rw [hdep] at hb
  by_cases h1 : n.step_id = 0 + 1
  · rw [if_pos h1] at hb
    simp [optList] at hb
  · rw [if_neg h1] at hb
    simp only [List.mem_singleton] at hb
    omega

theorem chain_no_cycle (steps : List Step) :
    ¬ hasCycle (buildNodes 0 none steps) := by
  rintro ⟨a, hcyc⟩
  have hlt : ∀ x y, Relation.TransGen (depRel (buildNodes 0 none steps)) x y →
      y < x := by
    intro x y hxy
    induction hxy with
    | single h => exact chain_depRel_lt steps _ _ h
    | tail _ h ih => exact Nat.lt_trans (chain_depRel_lt steps _ _ h) ih
  exact Nat.lt_irrefl a (hlt a a hcyc)

theorem chain_no_unknownDep (steps : List Step) :
    ¬ hasUnknownDep (buildNodes 0 none steps) := by
  rintro ⟨n, hn, d, hd, hnotin⟩
  obtain ⟨⟨hlo, _⟩, hdep, _⟩ := buildNodes_shape steps 0 none n hn
  rw [hdep] at hd
  by_cases h1 : n.step_id = 0 + 1
  · rw [if_pos h1] at hd
    simp [optList] at hd
  · rw [if_neg h1] at hd
    simp only [List.mem_singleton] at hd
    subst hd
    apply hnotin
    rw [buildNodes_ids steps 0 none, idsFrom_mem]
    obtain ⟨_, hhi⟩ := (buildNodes_shape steps 0 none n hn).1
    omega

theorem fromPlan_chain_ok (plan : Plan) (h : plan.steps ≠ []) :
    fromPlan plan = Except.ok (chainGraph plan.steps plan.task false) := by
  rw [fromPlan, if_neg h]
  show (match validateGraph (chainGraph plan.steps plan.task false) with
        | Except.error e => Except.error e
        | Except.ok _ => Except.ok (chainGraph plan.steps plan.task false)) =
      Except.ok (chainGraph plan.steps plan.task false)
  rw [validateGraph_chain plan.steps plan.task false]

/-- C3: `from_plan` raises `GraphBuildError` exactly when the plan's step
list is empty, some dependency names a nonexistent node, or the
dependency edges contain a cycle; for the chain `from_plan` itself
constructs the last two conditions never hold, so rejection happens
precisely on an empty step list, and otherwise a validated graph over the
constructed chain is returned. -/
theorem fromPlan_error_characterization (plan : Plan) :
    ((∃ e, fromPlan plan = Except.error e) ↔
      (plan.steps = [] ∨ hasUnknownDep (buildNodes 0 none plan.steps) ∨
        hasCycle (buildNodes 0 none plan.steps))) ∧
    (plan.steps ≠ [] → fromPlan plan =
      Except.ok (chainGraph plan.steps plan.task false)) := by
  by_cases hempty : plan.steps = []
  · constructor
    · constructor
      · intro _
        exact Or.inl hempty
      · intro _
        exact ⟨"Plan has no steps.", by rw [fromPlan, if_pos hempty]⟩
    · intro h
      exact absurd hempty h
  · have hok : fromPlan plan =
        Except.ok (chainGraph plan.steps plan.task false) :=
      fromPlan_chain_ok plan hempty
    refine ⟨?_, fun _ => hok⟩
    constructor
    · rintro ⟨e, he⟩
      rw [hok] at he
      exact absurd he (by simp)
    · rintro (h | h | h)
      · exact absurd h hempty
      · exact absurd h (chain_no_unknownDep plan.steps)
      · exact absurd h (chain_no_cycle plan.steps)

-- ── Chain-execution lemmas (orchestrator) ──────────────────

theorem find?_append_left_none {α : Type} (p : α → Bool) :
    ∀ (l1 l2 : List α), (∀ x ∈ l1, p x = false) →
    List.find? p (l1 ++ l2) = List.find? p l2 := by
  intro l1
  induction l1 with
  | nil => intro l2 _; rfl
  | cons a l ih =>
    intro l2 h
    rw [List.cons_append, List.find?_cons, h a (List.mem_cons_self a l)]
    exact ih l2 (fun x hx => h x (List.mem_cons_of_mem a hx))

theorem markRunning_id (now : Nat) (n : StepNode) :
    (n.markRunning now).step_id = n.step_id := by
  rw [StepNode.markRunning]
  split <;> rfl

theorem markRunning_pending (now : Nat) (n : StepNode)
    (h : n.status = StepStatus.PENDING) :
    n.markRunning now =
      { n with status := StepStatus.RUNNING, started_at := some now,
               attempts := n.attempts + 1 } := by
  rw [StepNode.markRunning, if_neg]
  rw [h]
  intro hc
  cases hc

theorem isDone_not_pending (n : StepNode) (h : n.isDone = true) :
    (decide (n.status = StepStatus.PENDING)) = false := by
  simp only [StepNode.isDone, Bool.or_eq_true, decide_eq_true_eq] at h
  rcases h with h | h <;> simp [h]

theorem isDone_not_failed (n : StepNode) (h : n.isDone = true) :
    (decide (n.status = StepStatus.FAILED)) = false := by
  simp only [StepNode.isDone, Bool.or_eq_true, decide_eq_true_eq] at h
  rcases h with h | h <;> simp [h]

theorem freshNode_toStepDict (i : Nat) (prev : Option Nat) (s : Step) :
    (freshNode i prev s).toStepDict = s := rfl

theorem freshNode_action (i : Nat) (prev : Option Nat) (s : Step) :
    (freshNode i prev s).action = s.action := rfl

theorem freshNode_method (i : Nat) (prev : Option Nat) (s : Step) :
    (freshNode i prev s).method = s.method := rfl

theorem freshNode_rollback_action (i : Nat) (prev : Option Nat) (s : Step) :
    (freshNode i prev s).rollback_action =
      dictGet ROLLBACK_MAP s.action none := rfl

theorem freshNode_value (i : Nat) (prev : Option Nat) (s : Step) :
    (freshNode i prev s).value = s.value := rfl

theorem freshNode_step_id (i : Nat) (prev : Option Nat) (s : Step) :
    (freshNode i prev s).step_id = i + 1 := rfl

theorem map_if_id {α : Type} (p : α → Prop) [DecidablePred p] (f : α → α) :
    ∀ l : List α, (∀ a ∈ l, ¬ p a) →
      l.map (fun a => if p a then f a else a) = l := by
  intro l
  induction l with
  | nil => intro _; rfl
  | cons a rest ih =>
    intro h
    rw [List.map_cons, if_neg (h a (List.mem_cons_self a rest)),
      ih (fun b hb => h b (List.mem_cons_of_mem a hb))]

/-- `getNode` on a decomposed chain: the prefix (ids ≤ k) never matches
`k+1`, the suffix starts with the id-`k+1` node. -/
theorem getNode_decomp (pre : List StepNode) (k : Nat)
    (x : StepNode) (tail : List StepNode) (tn : String) (fr : Bool)
    (hpreid : ∀ n ∈ pre, n.step_id ≤ k) (hx : x.step_id = k + 1) :
    StepGraph.getNode
      { nodes := pre ++ x :: tail, task_name := tn, frozen := fr }
      (k + 1) = some x := by
  have hpre' : ∀ n ∈ pre, (fun nd => decide (nd.step_id = k + 1)) n = false := by
    intro n hn
    have hk := hpreid n hn
    simp only [decide_eq_false_iff_not]
    omega
  rw [StepGraph.getNode]
  show List.find? (fun nd => decide (nd.step_id = k + 1)) (pre ++ x :: tail) =
    some x
  rw [find?_append_left_none _ pre (x :: tail) hpre', List.find?_cons]
  simp [hx]

theorem updateNode_decomp (pre : List StepNode) (x : StepNode)
    (tail : List StepNode) (tn : String) (fr : Bool) (f : StepNode → StepNode)
    (j : Nat) (hj : x.step_id = j)
    (hpre : ∀ n ∈ pre, n.step_id ≠ j)
    (htail : ∀ n ∈ tail, n.step_id ≠ j) :
    StepGraph.updateNode
      { nodes := pre ++ x :: tail, task_name := tn, frozen := fr }
      j f =
      { nodes := pre ++ f x :: tail, task_name := tn, frozen := fr } := by
  rw [StepGraph.updateNode]
  simp only [List.map_append, List.map_cons, hj, if_pos]
  rw [map_if_id (fun n => n.step_id = j) f pre hpre,
    map_if_id (fun n => n.step_id = j) f tail htail]

theorem find?_append_left_some {α : Type} (p : α → Bool) :
    ∀ (l1 l2 : List α) (d : α), List.find? p l1 = some d →
    List.find? p (l1 ++ l2) = some d := by
  intro l1
  induction l1 with
  | nil => intro l2 d h; cases h
  | cons a l ih =>
    intro l2 d h
    rw [List.find?_cons] at h
    rw [List.cons_append, List.find?_cons]
    cases hp : p a
    · rw [hp] at h
      exact ih l2 d h
    · rw [hp] at h
      exact h

/-- A dependency id bounded by `k` resolves to a done node or to nothing
when the prefix holds only done nodes with ids ≤ k and the suffix holds
only ids ≥ k+1. -/
theorem depLookup_done (pre suf : List StepNode) (tn : String) (fr : Bool)
    (k p : Nat) (hpre : ∀ n ∈ pre, n.isDone = true)
    (hsuf : ∀ n ∈ suf, k + 1 ≤ n.step_id) (hp : p ≤ k) :
    (match StepGraph.getNode
        { nodes := pre ++ suf, task_name := tn, frozen := fr } p with
     | none => true
     | some dep => dep.isDone) = true := by
  rw [StepGraph.getNode]
  cases hf : List.find? (fun n => decide (n.step_id = p)) pre with
  | some d =>
    rw [show List.find? (fun n => decide (n.step_id = p)) (pre ++ suf) =
        some d from find?_append_left_some _ pre suf d hf]
    exact hpre d (List.mem_of_find?_eq_some hf)
  | none =>
    have hpre' : ∀ n ∈ pre, (fun nd => decide (nd.step_id = p)) n = false := by
      intro n hn
      simpa using List.find?_eq_none.mp hf n hn
    rw [show List.find? (fun n => decide (n.step_id = p)) (pre ++ suf) =
        List.find? (fun n => decide (n.step_id = p)) suf from
      find?_append_left_none _ pre suf hpre']
    have hsuf' : List.find? (fun n => decide (n.step_id = p)) suf = none := by
      rw [List.find?_eq_none]
      intro n hn
      have := hsuf n hn
      simp only [decide_eq_true_eq]
      omega
    rw [hsuf']

theorem buildNodes_ge (steps : List Step) (i : Nat) (prev : Option Nat) :
    ∀ n ∈ buildNodes i prev steps, i + 1 ≤ n.step_id :=
  fun n hn => (buildNodes_shape steps i prev n hn).1.1

/-- The execution frontier of a partially-completed chain is exactly the
first pristine node. -/
theorem pendingNodes_decomp (pre : List StepNode) (k : Nat)
    (prev : Option Nat) (s : Step) (rest : List Step) (tn : String) (fr : Bool)
    (hpre : ∀ n ∈ pre, n.isDone = true) (hpreid : ∀ n ∈ pre, n.step_id ≤ k)
    (hprev : ∀ p, prev = some p → p ≤ k) :
    StepGraph.pendingNodes
      { nodes := pre ++ freshNode k prev s :: buildNodes (k + 1) (some (k + 1)) rest, task_name := tn, frozen := fr } =
      [freshNode k prev s] := by
  have hsuffix_ge : ∀ n ∈ freshNode k prev s ::
      buildNodes (k + 1) (some (k + 1)) rest, k + 1 ≤ n.step_id := by
    intro n hn
    rcases List.mem_cons.mp hn with rfl | hn
    · exact Nat.le_refl _
    · have := buildNodes_ge rest (k + 1) (some (k + 1)) n hn
      omega
  rw [StepGraph.pendingNodes]
  show (pre ++ freshNode k prev s :: buildNodes (k + 1) (some (k + 1)) rest).filter
      (fun n => decide (n.status = StepStatus.PENDING) &&
        StepGraph.depsOk { nodes := pre ++ freshNode k prev s :: buildNodes (k + 1) (some (k + 1)) rest, task_name := tn, frozen := fr } n) = _
  rw [List.filter_append, List.filter_cons]
  have h1 : pre.filter
      (fun n => decide (n.status = StepStatus.PENDING) &&
        StepGraph.depsOk { nodes := pre ++ freshNode k prev s :: buildNodes (k + 1) (some (k + 1)) rest, task_name := tn, frozen := fr } n) = [] := by
    rw [List.filter_eq_nil_iff]
    intro n hn
    rw [isDone_not_pending n (hpre n hn)]
    simp
  have h2 : (decide ((freshNode k prev s).status = StepStatus.PENDING) &&
      StepGraph.depsOk { nodes := pre ++ freshNode k prev s :: buildNodes (k + 1) (some (k + 1)) rest, task_name := tn, frozen := fr } (freshNode k prev s)) = true := by
    rw [StepGraph.depsOk]
    have hdeps : (freshNode k prev s).depends_on = optList prev := rfl
    rw [hdeps]
    cases prev with
    | none => simp [optList, freshNode]
    | some p =>
      have hp : p ≤ k := hprev p rfl
      simp only [optList, List.all_cons, List.all_nil, Bool.and_true]
      rw [depLookup_done pre _ tn fr k p hpre hsuffix_ge hp]
      simp [freshNode]
  have h3 : (buildNodes (k + 1) (some (k + 1)) rest).filter
      (fun n => decide (n.status = StepStatus.PENDING) &&
        StepGraph.depsOk { nodes := pre ++ freshNode k prev s :: buildNodes (k + 1) (some (k + 1)) rest, task_name := tn, frozen := fr } n) = [] := by
    rw [List.filter_eq_nil_iff]
    intro n hn
    obtain ⟨⟨hlo, hhi⟩, hdep, hst⟩ :=
      buildNodes_shape rest (k + 1) (some (k + 1)) n hn
    suffices hdok : StepGraph.depsOk
        { nodes := pre ++ freshNode k prev s :: buildNodes (k + 1) (some (k + 1)) rest, task_name := tn, frozen := fr } n = false by
      rw [hdok]
      simp
    rw [StepGraph.depsOk, hdep]
    have hd1 : ∀ d, d = k + 1 ∨ (k + 2 ≤ d ∧ d + 1 ≤ (k + 1) + rest.length) →
        (match StepGraph.getNode
            { nodes := pre ++ freshNode k prev s :: buildNodes (k + 1) (some (k + 1)) rest, task_name := tn, frozen := fr } d with
         | none => true
         | some dep => dep.isDone) = false := by
      intro d hd
      have hpre2 : ∀ n2 ∈ pre, (fun nd => decide (nd.step_id = d)) n2 = false := by
        intro n2 hn2
        have := hpreid n2 hn2
        simp only [decide_eq_false_iff_not]
        rcases hd with rfl | ⟨hd2, _⟩ <;> omega
      have hget : StepGraph.getNode
          { nodes := pre ++ freshNode k prev s :: buildNodes (k + 1) (some (k + 1)) rest, task_name := tn, frozen := fr } d = List.find?
          (fun nd => decide (nd.step_id = d))
          (freshNode k prev s :: buildNodes (k + 1) (some (k + 1)) rest) := by
        rw [StepGraph.getNode]
        exact find?_append_left_none _ pre _ hpre2
      rcases hd with rfl | ⟨hd2, hd3⟩
      · rw [hget, List.find?_cons]
        have hc : (decide ((freshNode k prev s).step_id = k + 1)) = true := by
          simp [freshNode]
        rw [hc]
        simp [StepNode.isDone, freshNode]
      · obtain ⟨nd, hfind, hndid, hndst, _⟩ :=
          buildNodes_find rest (k + 1) (some (k + 1)) d (by omega) (by omega)
        rw [hget, List.find?_cons]
        have hc : (decide ((freshNode k prev s).step_id = d)) = false := by
          simp [freshNode]
          omega
        rw [hc, hfind]
        simp [StepNode.isDone, hndst]
    by_cases he : n.step_id = k + 2
    · rw [if_pos he]
      simp only [optList, List.all_cons, List.all_nil, Bool.and_true]
      rw [hd1 (k + 1) (Or.inl rfl)]
    · rw [if_neg he]
      simp only [List.all_cons, List.all_nil, Bool.and_true]
      rw [hd1 (n.step_id - 1) (Or.inr (by omega))]
  rw [h1, h3, h2]
  simp

theorem hasFailed_eq_false (l : List StepNode) (tn : String) (fr : Bool)
    (h : ∀ n ∈ l, (decide (n.status = StepStatus.FAILED)) = false) :
    StepGraph.hasFailed { nodes := l, task_name := tn, frozen := fr } = false := by
  rw [StepGraph.hasFailed]
  rw [List.any_eq_false]
  intro n hn
  simpa using h n hn

theorem executeWithRetry_first (fn : Step → Bool) (step : Step) (c : FailCounts)
    (h : fn { step with method := step.method } = true) :
    executeWithRetry 3 fn step c = (some step.method, c, [step.method]) := by
  have h3 : retryLevel1 fn step step.action step.method 3 c =
      (some step.method, c, [step.method]) := by
    show retryLevel1 fn step step.action step.method (2 + 1) c = _
    rw [retryLevel1, h]
    rfl
  rw [executeWithRetry, h3]

theorem executeWithRetry_none (fn : Step → Bool) (step : Step) (c : FailCounts)
    (hfn : ∀ mv, fn { step with method := mv } = false) :
    (executeWithRetry 3 fn step c).1 = none := by
  rw [executeWithRetry,
    retryLevel1_allfail fn step step.action step.method hfn 3 c]
  rcases e2 : retryLevel2 fn step step.action
      (getFallbackChain step.action step.method
        (bumpCounts step.action step.method 3 c))
      (bumpCounts step.action step.method 3 c) with ⟨r2, c2, t2⟩
  have h2 := retryLevel2_allfail fn step step.action hfn
    (getFallbackChain step.action step.method
      (bumpCounts step.action step.method 3 c))
    (bumpCounts step.action step.method 3 c)
    (getFallbackChain_nodup step.action step.method _)
  rw [e2] at h2
  obtain ⟨hr2, _⟩ := h2
  simp only at hr2
  subst hr2
  simp only [e2]
  by_cases hs : step.action ∈ SINGLE_METHOD_ACTIONS
  · rw [if_pos hs, hfn "system"]
    rfl
  · rw [if_neg hs]

theorem transition_planned_executing :
    transition TaskState.PLANNED TaskState.EXECUTING =
      Except.ok TaskState.EXECUTING := rfl

theorem transition_verifying_executing :
    transition TaskState.VERIFYING TaskState.EXECUTING =
      Except.ok TaskState.EXECUTING := rfl

/-- `_exec_node` on the frontier node of a decomposed chain when the
executor succeeds on the first attempt and verification passes. -/
theorem execNode_success (B : Backend) (pre : List StepNode) (k : Nat)
    (prev : Option Nat) (s : Step) (tail : List StepNode) (tn : String)
    (fr : Bool) (st : OrchState)
    (hpreid : ∀ n ∈ pre, n.step_id ≤ k)
    (htail : ∀ n ∈ tail, k + 2 ≤ n.step_id)
    (hsm : st.sm = TaskState.PLANNED ∨ st.sm = TaskState.VERIFYING)
    (hexec : B.exec s = true)
    (hv : (verifyStep B s || B.recoverVerify s) = true) :
    execNode B (freshNode k prev s)
      { nodes := pre ++ freshNode k prev s :: tail, task_name := tn, frozen := fr }
      st =
      Except.ok (true, "",
        { nodes := pre ++ (StepNode.markSuccess (st.clock + 1) s.method (StepNode.markRunning st.clock (freshNode k prev s))) :: tail, task_name := tn, frozen := fr },
        { sm := TaskState.VERIFYING, counts := st.counts,
          rollbacks := rollbackPushOf (freshNode k prev s) st.rollbacks,
          clock := st.clock + 1 + 1 }) := by
  have htr : transition st.sm TaskState.EXECUTING =
      Except.ok TaskState.EXECUTING := by
    rcases hsm with h | h <;> rw [h] <;> rfl
  have hup1 := updateNode_decomp pre (freshNode k prev s) tail tn fr
    (StepNode.markRunning st.clock) (freshNode k prev s).step_id rfl
    (fun n hn => by have := hpreid n hn; simp only [freshNode]; omega)
    (fun n hn => by have := htail n hn; simp only [freshNode]; omega)
  simp only [execNode, htr, freshNode_toStepDict, hup1,
    executeWithRetry_first B.exec s st.counts hexec]
  have hup2 := updateNode_decomp pre (StepNode.markRunning st.clock (freshNode k prev s)) tail tn fr
    (StepNode.markSuccess (st.clock + 1) s.method) (freshNode k prev s).step_id
    (markRunning_id st.clock (freshNode k prev s))
    (fun n hn => by have := hpreid n hn; simp only [freshNode]; omega)
    (fun n hn => by have := htail n hn; simp only [freshNode]; omega)
  simp only [execNodeVerify, freshNode_toStepDict]
  rw [show transition TaskState.EXECUTING TaskState.VERIFYING =
    Except.ok TaskState.VERIFYING from rfl]
  simp only [hv, if_true, hup2]

/-- The node error text produced when every retry and fallback fails and
full-reset recovery also fails. -/
def exhaustedMsg (s : Step) : String :=
  (classify "executor returned None or False" s.action s.method).error_class.value
    ++ ": all retries exhausted"

/-- `_exec_node` on the frontier node when the executor fails on every
method and full-reset recovery fails: the node is marked FAILED and the
state machine moves EXECUTING → RECOVERING → FAILED. -/
theorem execNode_failure (B : Backend) (pre : List StepNode) (k : Nat)
    (prev : Option Nat) (s : Step) (tail : List StepNode) (tn : String)
    (fr : Bool) (st : OrchState)
    (hpreid : ∀ n ∈ pre, n.step_id ≤ k)
    (htail : ∀ n ∈ tail, k + 2 ≤ n.step_id)
    (hsm : st.sm = TaskState.PLANNED ∨ st.sm = TaskState.VERIFYING)
    (hexec : ∀ mv, B.exec { s with method := mv } = false)
    (hrec : B.recoverFull s = false) :
    ∃ c2 : FailCounts, execNode B (freshNode k prev s)
      { nodes := pre ++ freshNode k prev s :: tail, task_name := tn, frozen := fr }
      st =
      Except.ok (false, exhaustedMsg s,
        { nodes := pre ++ (StepNode.markFailed (st.clock + 1) (exhaustedMsg s) (StepNode.markRunning st.clock (freshNode k prev s))) :: tail, task_name := tn, frozen := fr },
        { sm := TaskState.FAILED, counts := c2,
          rollbacks := st.rollbacks, clock := st.clock + 1 + 1 }) := by
  have htr : transition st.sm TaskState.EXECUTING =
      Except.ok TaskState.EXECUTING := by
    rcases hsm with h | h <;> rw [h] <;> rfl
  have hup1 := updateNode_decomp pre (freshNode k prev s) tail tn fr
    (StepNode.markRunning st.clock) (freshNode k prev s).step_id rfl
    (fun n hn => by have := hpreid n hn; simp only [freshNode]; omega)
    (fun n hn => by have := htail n hn; simp only [freshNode]; omega)
  rcases e : executeWithRetry 3 B.exec s st.counts with ⟨r1, c2, t2⟩
  have hnone := executeWithRetry_none B.exec s st.counts hexec
  rw [e] at hnone
  simp only at hnone
  subst hnone
  refine ⟨c2, ?_⟩
  have hup2 := updateNode_decomp pre
    (StepNode.markRunning st.clock (freshNode k prev s)) tail tn fr
    (StepNode.markFailed (st.clock + 1) (exhaustedMsg s))
    (freshNode k prev s).step_id
    (markRunning_id st.clock (freshNode k prev s))
    (fun n hn => by have := hpreid n hn; simp only [freshNode]; omega)
    (fun n hn => by have := htail n hn; simp only [freshNode]; omega)
  simp only [execNode, htr, freshNode_toStepDict, hup1, e]
  rw [show transition TaskState.EXECUTING TaskState.RECOVERING =
    Except.ok TaskState.RECOVERING from rfl]
  simp only [hrec, Bool.false_eq_true, if_false]
  rw [show transition TaskState.RECOVERING TaskState.FAILED =
    Except.ok TaskState.FAILED from rfl]
  simp only [exhaustedMsg, freshNode_action, freshNode_method] at hup2 ⊢
  rw [hup2]

theorem markSuccess_isDone (now : Nat) (m : String) (n : StepNode) :
    (StepNode.markSuccess now m n).isDone = true := by
  simp [StepNode.markSuccess, StepNode.isDone]

theorem markSuccess_id (now : Nat) (m : String) (n : StepNode) :
    (StepNode.markSuccess now m n).step_id = n.step_id := rfl

theorem markSuccess_not_failed (now : Nat) (m : String) (n : StepNode) :
    (decide ((StepNode.markSuccess now m n).status = StepStatus.FAILED)) = false := by
  simp [StepNode.markSuccess]

theorem verifyStep_true (B : Backend) (s : Step)
    (h : ∀ s', B.verify s' = true) : verifyStep B s = true := by
  rw [verifyStep, h s]
  simp [ite_self]

theorem filter_pending_done_nil (pre : List StepNode) (p : StepNode → Bool)
    (hpre : ∀ n ∈ pre, n.isDone = true) :
    pre.filter (fun n => decide (n.status = StepStatus.PENDING) && p n) = [] := by
  rw [List.filter_eq_nil_iff]
  intro n hn
  rw [isDone_not_pending n (hpre n hn)]
  simp

/-- `_exec_graph` on a chain whose remaining steps all succeed on their
first attempt: every node ends SUCCESS and the returned result reports
full progress. -/
theorem execGraph_chain_success (B : Backend) (tn : String) (fr : Bool)
    (hexec : ∀ s, B.exec s = true) (hver : ∀ s, B.verify s = true) :
    ∀ (rest : List Step) (pre : List StepNode) (k : Nat) (prev : Option Nat)
      (st : OrchState) (fuel : Nat),
      (∀ n ∈ pre, n.isDone = true) → (∀ n ∈ pre, n.step_id ≤ k) →
      (∀ p, prev = some p → p ≤ k) →
      (st.sm = TaskState.PLANNED ∨ st.sm = TaskState.VERIFYING) →
      rest.length + 1 ≤ fuel →
      ∃ (res : TaskResultM) (gF : StepGraph) (stF : OrchState),
        execGraph B ExecMode.LIVE false "" fuel
          { nodes := pre ++ buildNodes k prev rest, task_name := tn, frozen := fr }
          st = Except.ok (res, gF, stF) ∧
        res.success = true ∧ res.error = "" ∧
        res.steps_done = pre.length + rest.length ∧
        res.steps_total = pre.length + rest.length ∧
        stF.sm = (if rest.isEmpty then st.sm else TaskState.VERIFYING) := by
  intro rest
  induction rest with
  | nil =>
    intro pre k prev st fuel hpre hpreid hprev hsm hfuel
    match fuel, hfuel with
    | f + 1, _ =>
      rw [execGraph]
      have hready : StepGraph.pendingNodes
          { nodes := pre ++ buildNodes k prev [], task_name := tn, frozen := fr } =
          [] := by
        rw [StepGraph.pendingNodes]
        show (pre ++ ([] : List StepNode)).filter _ = []
        rw [List.append_nil]
        exact filter_pending_done_nil pre _ hpre
      rw [hready, if_pos rfl]
      have hprog : StepGraph.progress
          { nodes := pre ++ buildNodes k prev [], task_name := tn, frozen := fr } =
          (pre.length, pre.length) := by
        rw [StepGraph.progress]
        show (((pre ++ ([] : List StepNode)).filter StepNode.isDone).length,
          (pre ++ ([] : List StepNode)).length) = _
        rw [List.append_nil, List.filter_eq_self.mpr hpre]
      refine ⟨_, _, st, rfl, ?_, ?_, ?_, ?_, ?_⟩
      · simp [makeResult, hprog]
      · simp [makeResult, hprog]
      · simp [makeResult, hprog]
      · simp [makeResult, hprog]
      · simp
  | cons s rest ih =>
    intro pre k prev st fuel hpre hpreid hprev hsm hfuel
    match fuel, hfuel with
    | f + 1, hf =>
      have hbn : buildNodes k prev (s :: rest) =
          freshNode k prev s :: buildNodes (k + 1) (some (k + 1)) rest := rfl
      rw [execGraph, hbn]
      rw [pendingNodes_decomp pre k prev s rest tn fr hpre hpreid hprev]
      rw [if_neg (by simp)]
      have hfid : (freshNode k prev s).step_id = k + 1 := rfl
      rw [show ([freshNode k prev s].map (fun n => n.step_id)) =
        [(freshNode k prev s).step_id] from rfl]
      have hget := getNode_decomp pre k (freshNode k prev s)
        (buildNodes (k + 1) (some (k + 1)) rest) tn fr hpreid rfl
      have hexn := execNode_success B pre k prev s
        (buildNodes (k + 1) (some (k + 1)) rest) tn fr st hpreid
        (buildNodes_ge rest (k + 1) (some (k + 1))) hsm (hexec s)
        (by rw [verifyStep_true B s hver]; simp)
      rw [forReady, hfid]
      simp only [hget, Bool.false_eq_true, if_false,
        show canExecute ExecMode.LIVE (freshNode k prev s).toStepDict = true
          from rfl,
        Bool.not_true, hexn]
      rw [forReady]
      set doneN := StepNode.markSuccess (st.clock + 1) s.method
        (StepNode.markRunning st.clock (freshNode k prev s)) with hdoneN
      have hfail : StepGraph.hasFailed
          { nodes := pre ++ doneN :: buildNodes (k + 1) (some (k + 1)) rest, task_name := tn, frozen := fr } = false := by
        apply hasFailed_eq_false
        intro n hn
        rcases List.mem_append.mp hn with hn | hn
        · exact isDone_not_failed n (hpre n hn)
        · rcases List.mem_cons.mp hn with rfl | hn
          · exact markSuccess_not_failed _ _ _
          · have hst := (buildNodes_shape rest (k + 1) (some (k + 1)) n hn).2.2
            simp [hst]
      simp only [hfail, Bool.false_eq_true, if_false]
      have hsplit : pre ++ doneN :: buildNodes (k + 1) (some (k + 1)) rest =
          (pre ++ [doneN]) ++ buildNodes (k + 1) (some (k + 1)) rest := by
        simp
      rw [hsplit]
      have hpre2 : ∀ n ∈ pre ++ [doneN], n.isDone = true := by
        intro n hn
        rcases List.mem_append.mp hn with hn | hn
        · exact hpre n hn
        · rcases List.mem_singleton.mp hn with rfl
          exact markSuccess_isDone _ _ _
      have hpreid2 : ∀ n ∈ pre ++ [doneN], n.step_id ≤ k + 1 := by
        intro n hn
        rcases List.mem_append.mp hn with hn | hn
        · have := hpreid n hn
          omega
        · rcases List.mem_singleton.mp hn with rfl
          rw [hdoneN, markSuccess_id, markRunning_id, hfid]
      obtain ⟨res, gF, stF, hrun, hs1, hs2, hs3, hs4, hs5⟩ :=
        ih (pre ++ [doneN]) (k + 1) (some (k + 1))
          { sm := TaskState.VERIFYING, counts := st.counts,
            rollbacks := rollbackPushOf (freshNode k prev s) st.rollbacks,
            clock := st.clock + 1 + 1 }
          f hpre2 hpreid2
          (fun p hp => by cases hp; exact Nat.le_refl _)
          (Or.inr rfl)
          (by simp only [List.length_cons] at hf; omega)
      refine ⟨res, gF, stF, hrun, hs1, hs2, ?_, ?_, ?_⟩
      · rw [hs3]
        simp
        omega
      · rw [hs4]
        simp
        omega
      · rw [hs5]
        cases rest <;> simp

theorem buildNodes_length : ∀ (steps : List Step) (i : Nat) (prev : Option Nat),
    (buildNodes i prev steps).length = steps.length := by
  intro steps
  induction steps with
  | nil => intro i prev; rfl
  | cons s rest ih =>
    intro i prev
    simp only [buildNodes, List.length_cons, ih]

theorem runModel_ok_init (B : Backend) (mode : ExecMode) (ab : Bool)
    (ar : String) (c0 : FailCounts) (p : Plan) (out : RunOut)
    (h : runModel B mode ab ar c0 p = Except.ok out) :
    out.finalState = TaskState.INIT := by
  rw [runModel] at h
  simp only [show transition TaskState.INIT TaskState.PLANNED =
    Except.ok TaskState.PLANNED from rfl] at h
  split at h
  · simp only [show transition TaskState.PLANNED TaskState.SUCCESS =
      Except.error "IllegalTransitionError: not allowed by table" from rfl] at h
    exact absurd h (by simp)
  · split at h
    · exact absurd h (by simp)
    · split at h
      · exact absurd h (by simp)
      · split at h
        · split at h
          · exact absurd h (by simp)
          · rw [Except.ok.injEq] at h
            subst h
            rfl
        · split at h
          · exact absurd h (by simp)
          · rw [Except.ok.injEq] at h
            subst h
            rfl

/-- C2: for every nonempty plan (a single dependency chain by
construction) whose steps all execute and verify on the first attempt,
`run()` returns a TaskResult with success = true and
steps_done = steps_total = N, and the state machine ends in INIT; and for
every run that returns at all, the final `force_reset` leaves the state
machine in INIT regardless of outcome. -/
theorem chain_success_run :
    (∀ (plan : Plan) (B : Backend) (counts0 : FailCounts),
      plan.steps ≠ [] → (∀ s, B.exec s = true) → (∀ s, B.verify s = true) →
      ∃ out, runModel B ExecMode.LIVE false "" counts0 plan = Except.ok out ∧
        out.result.success = true ∧
        out.result.steps_done = plan.steps.length ∧
        out.result.steps_total = plan.steps.length ∧
        out.finalState = TaskState.INIT) ∧
    (∀ (B : Backend) (mode : ExecMode) (ab : Bool) (ar : String)
       (c0 : FailCounts) (p : Plan) (out : RunOut),
      runModel B mode ab ar c0 p = Except.ok out →
      out.finalState = TaskState.INIT) := by
  constructor
  · intro plan B counts0 h1 hexec hver
    obtain ⟨res, gF, stF, hrun, hs1, hs2, hs3, hs4, hs5⟩ :=
      execGraph_chain_success B plan.task true hexec hver plan.steps [] 0 none
        { sm := TaskState.PLANNED, counts := counts0, rollbacks := [],
          clock := 0 }
        ((chainGraph plan.steps plan.task false).freeze.nodes.length + 1)
        (by intro n hn; cases hn) (by intro n hn; cases hn)
        (by intro p hp; cases hp) (Or.inl rfl)
        (by
          show plan.steps.length + 1 ≤ (buildNodes 0 none plan.steps).length + 1
          rw [buildNodes_length]
          )
    simp only [List.nil_append] at hrun
    rw [runModel]
    simp only [show transition TaskState.INIT TaskState.PLANNED =
      Except.ok TaskState.PLANNED from rfl]
    rw [if_neg (by intro hc; cases hc)]
    rw [fromPlan_chain_ok plan h1]
    have hfr : (chainGraph plan.steps plan.task false).freeze =
        { nodes := buildNodes 0 none plan.steps, task_name := plan.task,
          frozen := true } := rfl
    rw [← hfr] at hrun
    simp only [hrun]
    have hsmF : stF.sm = TaskState.VERIFYING := by
      rw [hs5, if_neg]
      simp only [List.isEmpty_eq_true]
      exact fun hc => h1 hc
    simp only [hs1, if_true, hsmF,
      show transition TaskState.VERIFYING TaskState.SUCCESS =
        Except.ok TaskState.SUCCESS from rfl]
    refine ⟨_, rfl, hs1, ?_, ?_, rfl⟩
    · rw [hs3]
      simp
    · rw [hs4]
      simp
  · exact runModel_ok_init

/-- Witness for C2: the spec's one-step `lock_screen` plan against an
all-succeeding backend. -/
theorem chain_success_run_witness :
    ∃ out, runModel allOkBackend ExecMode.LIVE false "" FailCounts.zero
        lockPlan = Except.ok out ∧
      out.result.success = true ∧
      out.result.steps_done = lockPlan.steps.length ∧
      out.result.steps_total = lockPlan.steps.length ∧
      out.finalState = TaskState.INIT :=
  chain_success_run.1 lockPlan allOkBackend FailCounts.zero (by decide)
    (fun _ => rfl) (fun _ => rfl)

theorem markSkipped_status (reason : String) (n : StepNode) :
    (StepNode.markSkipped reason n).status = StepStatus.SKIPPED := rfl

theorem markSkipped_id (reason : String) (n : StepNode) :
    (StepNode.markSkipped reason n).step_id = n.step_id := rfl

theorem skipped_isDone (n : StepNode) (h : n.status = StepStatus.SKIPPED) :
    n.isDone = true := by
  simp [StepNode.isDone, h]

/-- `_exec_graph` in SAFE_MODE on a chain whose remaining actions are all
blocked by the execution-mode gate: every node is skipped, nothing
executes, the orchestrator state is untouched, and the result still
reports full progress. -/
theorem execGraph_chain_skipped (B : Backend) (tn : String) (fr : Bool) :
    ∀ (rest : List Step) (pre : List StepNode) (k : Nat) (prev : Option Nat)
      (st : OrchState) (fuel : Nat),
      (∀ n ∈ pre, n.status = StepStatus.SKIPPED) →
      (∀ n ∈ pre, n.step_id ≤ k) →
      (∀ p, prev = some p → p ≤ k) →
      (∀ t ∈ rest, canExecute ExecMode.SAFE_MODE t = false) →
      rest.length + 1 ≤ fuel →
      ∃ (res : TaskResultM) (gF : StepGraph),
        execGraph B ExecMode.SAFE_MODE false "" fuel
          { nodes := pre ++ buildNodes k prev rest, task_name := tn, frozen := fr }
          st = Except.ok (res, gF, st) ∧
        res.success = true ∧
        res.steps_done = pre.length + rest.length ∧
        res.steps_total = pre.length + rest.length ∧
        (∀ n ∈ gF.nodes, n.status = StepStatus.SKIPPED) := by
  intro rest
  induction rest with
  | nil =>
    intro pre k prev st fuel hpre hpreid hprev hskip hfuel
    match fuel, hfuel with
    | f + 1, _ =>
      have hdone : ∀ n ∈ pre, n.isDone = true :=
        fun n hn => skipped_isDone n (hpre n hn)
      rw [execGraph]
      have hready : StepGraph.pendingNodes
          { nodes := pre ++ buildNodes k prev [], task_name := tn, frozen := fr } =
          [] := by
        rw [StepGraph.pendingNodes]
        show (pre ++ ([] : List StepNode)).filter _ = []
        rw [List.append_nil]
        exact filter_pending_done_nil pre _ hdone
      rw [hready, if_pos rfl]
      have hprog : StepGraph.progress
          { nodes := pre ++ buildNodes k prev [], task_name := tn, frozen := fr } =
          (pre.length, pre.length) := by
        rw [StepGraph.progress]
        show (((pre ++ ([] : List StepNode)).filter StepNode.isDone).length,
          (pre ++ ([] : List StepNode)).length) = _
        rw [List.append_nil, List.filter_eq_self.mpr hdone]
      refine ⟨_, _, rfl, ?_, ?_, ?_, ?_⟩
      · simp [makeResult, hprog]
      · simp [makeResult, hprog]
      · simp [makeResult, hprog]
      · intro n hn
        rw [show ({ nodes := pre ++ buildNodes k prev [], task_name := tn, frozen := fr } : StepGraph).nodes = pre ++ [] from rfl, List.append_nil] at hn
        exact hpre n hn
  | cons s rest ih =>
    intro pre k prev st fuel hpre hpreid hprev hskip hfuel
    match fuel, hfuel with
    | f + 1, hf =>
      have hdone : ∀ n ∈ pre, n.isDone = true :=
        fun n hn => skipped_isDone n (hpre n hn)
      have hbn : buildNodes k prev (s :: rest) =
          freshNode k prev s :: buildNodes (k + 1) (some (k + 1)) rest := rfl
      rw [execGraph, hbn]
      rw [pendingNodes_decomp pre k prev s rest tn fr hdone hpreid hprev]
      rw [if_neg (by simp)]
      have hfid : (freshNode k prev s).step_id = k + 1 := rfl
      rw [show ([freshNode k prev s].map (fun n => n.step_id)) =
        [(freshNode k prev s).step_id] from rfl]
      have hget := getNode_decomp pre k (freshNode k prev s)
        (buildNodes (k + 1) (some (k + 1)) rest) tn fr hpreid rfl
      have hup := updateNode_decomp pre (freshNode k prev s)
        (buildNodes (k + 1) (some (k + 1)) rest) tn fr
        (StepNode.markSkipped "blocked by exec_context")
        (k + 1) rfl
        (fun n hn => by have := hpreid n hn; omega)
        (fun n hn => by
          have := buildNodes_ge rest (k + 1) (some (k + 1)) n hn
          omega)
      have hcan : canExecute ExecMode.SAFE_MODE (freshNode k prev s).toStepDict =
          false := by
        rw [freshNode_toStepDict]
        exact hskip s (List.mem_cons_self s rest)
      rw [forReady, hfid]
      simp only [hget, Bool.false_eq_true, if_false, hcan, Bool.not_false,
        if_true, hup]
      rw [forReady]
      set skpN := StepNode.markSkipped "blocked by exec_context"
        (freshNode k prev s) with hskpN
      have hfail : StepGraph.hasFailed
          { nodes := pre ++ skpN :: buildNodes (k + 1) (some (k + 1)) rest, task_name := tn, frozen := fr } = false := by
        apply hasFailed_eq_false
        intro n hn
        rcases List.mem_append.mp hn with hn | hn
        · have := hpre n hn
          simp [this]
        · rcases List.mem_cons.mp hn with rfl | hn
          · simp [hskpN, markSkipped_status]
          · have hst := (buildNodes_shape rest (k + 1) (some (k + 1)) n hn).2.2
            simp [hst]
      simp only [hfail, Bool.false_eq_true, if_false]
      have hsplit : pre ++ skpN :: buildNodes (k + 1) (some (k + 1)) rest =
          (pre ++ [skpN]) ++ buildNodes (k + 1) (some (k + 1)) rest := by
        simp
      rw [hsplit]
      have hpre2 : ∀ n ∈ pre ++ [skpN], n.status = StepStatus.SKIPPED := by
        intro n hn
        rcases List.mem_append.mp hn with hn | hn
        · exact hpre n hn
        · rcases List.mem_singleton.mp hn with rfl
          exact markSkipped_status _ _
      have hpreid2 : ∀ n ∈ pre ++ [skpN], n.step_id ≤ k + 1 := by
        intro n hn
        rcases List.mem_append.mp hn with hn | hn
        · have := hpreid n hn
          omega
        · rcases List.mem_singleton.mp hn with rfl
          rw [hskpN, markSkipped_id, hfid]
      obtain ⟨res, gF, hrun, hs1, hs3, hs4, hs6⟩ :=
        ih (pre ++ [skpN]) (k + 1) (some (k + 1)) st f hpre2 hpreid2
          (fun p hp => by cases hp; exact Nat.le_refl _)
          (fun t ht => hskip t (List.mem_cons_of_mem s ht))
          (by simp only [List.length_cons] at hf; omega)
      refine ⟨res, gF, hrun, hs1, ?_, ?_, hs6⟩
      · rw [hs3]
        simp
        omega
      · rw [hs4]
        simp
        omega


/-- C10 counterexample: running the spec's one-step `lock_screen` plan
in SAFE_MODE — where `run_command` is blocked by the execution-mode gate,
so the single node is skipped, not failed — makes `run()` raise
IllegalTransitionError (PLANNED → SUCCESS is not in the transition
table) instead of returning the success TaskResult `_exec_graph` built. -/
theorem all_skipped_run_raises :
    runModel allOkBackend ExecMode.SAFE_MODE false "" FailCounts.zero
      lockPlan = Except.error "IllegalTransitionError: not allowed by table" :=
  rfl

/-- C10 (amended): `steps_done` does count SUCCESS and SKIPPED nodes
alike, and when the execution-mode gate blocks every step of a nonempty
plan the inner `_exec_graph` reports success = true with
steps_done = steps_total and every node SKIPPED — but because no node
ever executed the state machine is still PLANNED, so `run()` raises
IllegalTransitionError on its PLANNED → SUCCESS attempt and never
returns that TaskResult. -/
theorem skipped_counts_as_done :
    (∀ (g : StepGraph) (tn cmd err : String),
      (makeResult g tn cmd err).steps_done =
        (g.nodes.filter (fun n => n.status = StepStatus.SUCCESS ||
          n.status = StepStatus.SKIPPED)).length) ∧
    (∀ (B : Backend) (plan : Plan) (counts0 : FailCounts),
      plan.steps ≠ [] →
      (∀ t ∈ plan.steps, canExecute ExecMode.SAFE_MODE t = false) →
      (∃ res gF,
        execGraph B ExecMode.SAFE_MODE false ""
          ((chainGraph plan.steps plan.task false).freeze.nodes.length + 1)
          (chainGraph plan.steps plan.task false).freeze
          { sm := TaskState.PLANNED, counts := counts0, rollbacks := [],
            clock := 0 } =
          Except.ok (res, gF,
            { sm := TaskState.PLANNED, counts := counts0, rollbacks := [],
              clock := 0 }) ∧
        res.success = true ∧
        res.steps_done = plan.steps.length ∧
        res.steps_total = plan.steps.length ∧
        (∀ n ∈ gF.nodes, n.status = StepStatus.SKIPPED)) ∧
      runModel B ExecMode.SAFE_MODE false "" counts0 plan =
        Except.error "IllegalTransitionError: not allowed by table") := by
  constructor
  · intro g tn cmd err
    rfl
  · intro B plan counts0 h1 hblock
    have hfr : (chainGraph plan.steps plan.task false).freeze =
        { nodes := buildNodes 0 none plan.steps, task_name := plan.task,
          frozen := true } := rfl
    have hfuel : plan.steps.length + 1 ≤
        (chainGraph plan.steps plan.task false).freeze.nodes.length + 1 := by
      rw [hfr]
      show plan.steps.length + 1 ≤ (buildNodes 0 none plan.steps).length + 1
      rw [buildNodes_length]
    obtain ⟨res, gF, hrun, hs1, hs3, hs4, hs6⟩ :=
      execGraph_chain_skipped B plan.task true plan.steps [] 0 none
        { sm := TaskState.PLANNED, counts := counts0, rollbacks := [],
          clock := 0 }
        ((chainGraph plan.steps plan.task false).freeze.nodes.length + 1)
        (by intro n hn; cases hn) (by intro n hn; cases hn)
        (by intro p hp; cases hp) hblock hfuel
    simp only [List.nil_append] at hrun
    simp only [List.length_nil, Nat.zero_add] at hs3 hs4
    rw [← hfr] at hrun
    refine ⟨⟨res, gF, hrun, hs1, hs3, hs4, hs6⟩, ?_⟩
    rw [runModel]
    simp only [show transition TaskState.INIT TaskState.PLANNED =
      Except.ok TaskState.PLANNED from rfl]
    rw [if_neg (by intro hc; cases hc)]
    rw [fromPlan_chain_ok plan h1]
    simp only [hrun]
    simp only [hs1, if_true,
      show transition TaskState.PLANNED TaskState.SUCCESS =
        Except.error "IllegalTransitionError: not allowed by table" from rfl]

/-- Witness for C10: the `lock_screen` plan in SAFE_MODE. -/
theorem skipped_counts_as_done_witness :
    (∃ res gF,
      execGraph allOkBackend ExecMode.SAFE_MODE false ""
        ((chainGraph lockPlan.steps lockPlan.task false).freeze.nodes.length
          + 1)
        (chainGraph lockPlan.steps lockPlan.task false).freeze
        { sm := TaskState.PLANNED, counts := FailCounts.zero,
          rollbacks := [], clock := 0 } =
        Except.ok (res, gF,
          { sm := TaskState.PLANNED, counts := FailCounts.zero,
            rollbacks := [], clock := 0 }) ∧
      res.success = true ∧
      res.steps_done = lockPlan.steps.length ∧
      res.steps_total = lockPlan.steps.length ∧
      (∀ n ∈ gF.nodes, n.status = StepStatus.SKIPPED)) ∧
    runModel allOkBackend ExecMode.SAFE_MODE false "" FailCounts.zero
      lockPlan = Except.error "IllegalTransitionError: not allowed by table" :=
  skipped_counts_as_done.2 allOkBackend lockPlan FailCounts.zero (by decide)
    (by decide)


/-- `_exec_graph` on a decomposed chain whose first remaining step fails
on every method with full-reset recovery also failing: that node is
marked FAILED and the loop returns the failure result immediately. -/
theorem execGraph_chain_fail_first (B : Backend) (tn : String) (fr : Bool)
    (s : Step) (rest : List Step) (pre : List StepNode) (k : Nat)
    (prev : Option Nat) (st : OrchState) (fuel : Nat)
    (hpre : ∀ n ∈ pre, n.isDone = true) (hpreid : ∀ n ∈ pre, n.step_id ≤ k)
    (hprev : ∀ p, prev = some p → p ≤ k)
    (hsm : st.sm = TaskState.PLANNED ∨ st.sm = TaskState.VERIFYING)
    (hfail : ∀ mv, B.exec { s with method := mv } = false)
    (hrec : B.recoverFull s = false)
    (hfuel : 1 ≤ fuel) :
    ∃ (c2 : FailCounts) (res : TaskResultM) (gF : StepGraph),
      execGraph B ExecMode.LIVE false "" fuel
        { nodes := pre ++ buildNodes k prev (s :: rest), task_name := tn, frozen := fr }
        st = Except.ok (res, gF,
          { sm := TaskState.FAILED, counts := c2,
            rollbacks := st.rollbacks, clock := st.clock + 1 + 1 }) ∧
      res.success = false ∧
      res.error = exhaustedMsg s ∧
      res.steps_done = pre.length ∧
      res.steps_total = pre.length + 1 + rest.length := by
  match fuel, hfuel with
  | f + 1, _ =>
    have hbn : buildNodes k prev (s :: rest) =
        freshNode k prev s :: buildNodes (k + 1) (some (k + 1)) rest := rfl
    rw [execGraph, hbn]
    rw [pendingNodes_decomp pre k prev s rest tn fr hpre hpreid hprev]
    rw [if_neg (by simp)]
    have hfid : (freshNode k prev s).step_id = k + 1 := rfl
    rw [show ([freshNode k prev s].map (fun n => n.step_id)) =
      [(freshNode k prev s).step_id] from rfl]
    have hget := getNode_decomp pre k (freshNode k prev s)
      (buildNodes (k + 1) (some (k + 1)) rest) tn fr hpreid rfl
    obtain ⟨c2, hexn⟩ := execNode_failure B pre k prev s
      (buildNodes (k + 1) (some (k + 1)) rest) tn fr st hpreid
      (buildNodes_ge rest (k + 1) (some (k + 1))) hsm hfail hrec
    rw [forReady, hfid]
    simp only [hget, Bool.false_eq_true, if_false,
      show canExecute ExecMode.LIVE (freshNode k prev s).toStepDict = true
        from rfl,
      Bool.not_true, hexn]
    set failedN := StepNode.markFailed (st.clock + 1) (exhaustedMsg s)
      (StepNode.markRunning st.clock (freshNode k prev s)) with hfailedN
    have hfd : failedN.isDone = false := by
      rw [hfailedN]
      rfl
    have hfilter : (pre ++ failedN :: buildNodes (k + 1) (some (k + 1)) rest).filter
        StepNode.isDone = pre := by
      rw [List.filter_append, List.filter_cons]
      rw [List.filter_eq_self.mpr hpre]
      rw [hfd]
      have htail : (buildNodes (k + 1) (some (k + 1)) rest).filter
          StepNode.isDone = [] := by
        rw [List.filter_eq_nil_iff]
        intro n hn
        have hst := (buildNodes_shape rest (k + 1) (some (k + 1)) n hn).2.2
        simp [StepNode.isDone, hst]
      rw [htail]
      simp
    have hprog : StepGraph.progress
        { nodes := pre ++ failedN :: buildNodes (k + 1) (some (k + 1)) rest, task_name := tn, frozen := fr } =
        (pre.length, pre.length + 1 + rest.length) := by
      rw [StepGraph.progress]
      show (((pre ++ failedN :: buildNodes (k + 1) (some (k + 1)) rest).filter
        StepNode.isDone).length,
        (pre ++ failedN :: buildNodes (k + 1) (some (k + 1)) rest).length) = _
      rw [hfilter]
      simp only [List.length_append, List.length_cons, buildNodes_length,
        Prod.mk.injEq]
      constructor
      · trivial
      · omega
    refine ⟨c2, _, _, rfl, ?_, ?_, ?_, ?_⟩
    · simp only [makeResult, hprog]
      have hne : (decide (pre.length = pre.length + 1 + rest.length)) = false := by
        simp only [decide_eq_false_iff_not]
        omega
      simp [hne]
    · simp [makeResult]
    · simp [makeResult, hprog]
    · simp [makeResult, hprog]

/-- `_exec_graph` on a decomposed chain where the first remaining step
succeeds first-try and the second fails permanently: the run stops at the
failure with exactly one more node done, and only the first node's
rollback registration is added to the state. -/
theorem execGraph_chain_fail_second (B : Backend) (tn : String) (fr : Bool)
    (s1 s2 : Step) (rest : List Step) (pre : List StepNode) (k : Nat)
    (prev : Option Nat) (st : OrchState) (fuel : Nat)
    (hpre : ∀ n ∈ pre, n.isDone = true) (hpreid : ∀ n ∈ pre, n.step_id ≤ k)
    (hprev : ∀ p, prev = some p → p ≤ k)
    (hsm : st.sm = TaskState.PLANNED ∨ st.sm = TaskState.VERIFYING)
    (hex1 : B.exec s1 = true) (hver : ∀ s, B.verify s = true)
    (hfail2 : ∀ mv, B.exec { s2 with method := mv } = false)
    (hrec2 : B.recoverFull s2 = false)
    (hfuel : 2 ≤ fuel) :
    ∃ (c2 : FailCounts) (res : TaskResultM) (gF : StepGraph),
      execGraph B ExecMode.LIVE false "" fuel
        { nodes := pre ++ buildNodes k prev (s1 :: s2 :: rest), task_name := tn, frozen := fr }
        st = Except.ok (res, gF,
          { sm := TaskState.FAILED, counts := c2,
            rollbacks := rollbackPushOf (freshNode k prev s1) st.rollbacks,
            clock := st.clock + 1 + 1 + 1 + 1 }) ∧
      res.success = false ∧
      res.error = exhaustedMsg s2 ∧
      res.steps_done = pre.length + 1 ∧
      res.steps_total = pre.length + 2 + rest.length := by
  match fuel, hfuel with
  | f + 1, hf =>
    have hbn : buildNodes k prev (s1 :: s2 :: rest) =
        freshNode k prev s1 :: buildNodes (k + 1) (some (k + 1)) (s2 :: rest) := rfl
    rw [execGraph, hbn]
    rw [pendingNodes_decomp pre k prev s1 (s2 :: rest) tn fr hpre hpreid hprev]
    rw [if_neg (by simp)]
    have hfid : (freshNode k prev s1).step_id = k + 1 := rfl
    rw [show ([freshNode k prev s1].map (fun n => n.step_id)) =
      [(freshNode k prev s1).step_id] from rfl]
    have hget := getNode_decomp pre k (freshNode k prev s1)
      (buildNodes (k + 1) (some (k + 1)) (s2 :: rest)) tn fr hpreid rfl
    have hexn := execNode_success B pre k prev s1
      (buildNodes (k + 1) (some (k + 1)) (s2 :: rest)) tn fr st hpreid
      (buildNodes_ge (s2 :: rest) (k + 1) (some (k + 1))) hsm hex1
      (by rw [verifyStep_true B s1 hver]; simp)
    rw [forReady, hfid]
    simp only [hget, Bool.false_eq_true, if_false,
      show canExecute ExecMode.LIVE (freshNode k prev s1).toStepDict = true
        from rfl,
      Bool.not_true, hexn]
    rw [forReady]
    set doneN := StepNode.markSuccess (st.clock + 1) s1.method
      (StepNode.markRunning st.clock (freshNode k prev s1)) with hdoneN
    have hfailg : StepGraph.hasFailed
        { nodes := pre ++ doneN :: buildNodes (k + 1) (some (k + 1)) (s2 :: rest), task_name := tn, frozen := fr } = false := by
      apply hasFailed_eq_false
      intro n hn
      rcases List.mem_append.mp hn with hn | hn
      · exact isDone_not_failed n (hpre n hn)
      · rcases List.mem_cons.mp hn with rfl | hn
        · exact markSuccess_not_failed _ _ _
        · have hst := (buildNodes_shape (s2 :: rest) (k + 1) (some (k + 1)) n hn).2.2
          simp [hst]
    simp only [hfailg, Bool.false_eq_true, if_false]
    have hsplit : pre ++ doneN :: buildNodes (k + 1) (some (k + 1)) (s2 :: rest) =
        (pre ++ [doneN]) ++ buildNodes (k + 1) (some (k + 1)) (s2 :: rest) := by
      simp
    rw [hsplit]
    have hpre2 : ∀ n ∈ pre ++ [doneN], n.isDone = true := by
      intro n hn
      rcases List.mem_append.mp hn with hn | hn
      · exact hpre n hn
      · rcases List.mem_singleton.mp hn with rfl
        exact markSuccess_isDone _ _ _
    have hpreid2 : ∀ n ∈ pre ++ [doneN], n.step_id ≤ k + 1 := by
      intro n hn
      rcases List.mem_append.mp hn with hn | hn
      · have := hpreid n hn
        omega
      · rcases List.mem_singleton.mp hn with rfl
        rw [hdoneN, markSuccess_id, markRunning_id, hfid]
    obtain ⟨c2, res, gF, hrun2, hr1, hr2, hr3, hr4⟩ :=
      execGraph_chain_fail_first B tn fr s2 rest (pre ++ [doneN]) (k + 1)
        (some (k + 1))
        { sm := TaskState.VERIFYING, counts := st.counts,
          rollbacks := rollbackPushOf (freshNode k prev s1) st.rollbacks,
          clock := st.clock + 1 + 1 }
        f hpre2 hpreid2
        (fun p hp => by cases hp; exact Nat.le_refl _)
        (Or.inr rfl) hfail2 hrec2
        (by omega)
    refine ⟨c2, res, gF, hrun2, hr1, hr2, ?_, ?_⟩
    · rw [hr3]
      simp only [List.length_append, List.length_singleton]
    · rw [hr4]
      simp only [List.length_append, List.length_singleton]

/-- C5: rollback compensations run in reverse (LIFO) registration order,
and on a 3-step chain whose second step fails permanently after the first
succeeded first-try, `run()` executes exactly the first step's registered
compensating action, reports steps_done = 1 (only the step that reached
SUCCESS before the failure), steps_total = 3 and success = false, and the
state machine force-resets to INIT. -/
theorem three_step_chain_rollback :
    (∀ (rbE : RollbackStep → Bool) (stack : List RollbackEntry),
      (rollbackAllExec rbE stack).map (fun r => r.action) =
        (stack.map (fun e => e.step.action)).reverse) ∧
    (∀ (B : Backend) (s1 s2 s3 : Step) (r1 tn : String) (c0 : FailCounts),
      B.exec s1 = true →
      (∀ s, B.verify s = true) →
      (∀ mv, B.exec { s2 with method := mv } = false) →
      B.recoverFull s2 = false →
      dictGet ROLLBACK_MAP s1.action none = some r1 →
      r1 ≠ "" →
      ∃ out, runModel B ExecMode.LIVE false "" c0
          { task := tn, steps := [s1, s2, s3] } = Except.ok out ∧
        out.result.success = false ∧
        out.result.steps_done = 1 ∧
        out.result.steps_total = 3 ∧
        out.result.error = exhaustedMsg s2 ∧
        out.rollbackResults.map (fun r => r.action) = [r1] ∧
        out.rollbackResults.map (fun r => r.source_step) = [1] ∧
        out.finalState = TaskState.INIT) := by
  constructor
  · intro rbE stack
    rw [rollbackAllExec, List.map_map, List.map_reverse]
    rfl
  · intro B s1 s2 s3 r1 tn c0 hex1 hver hfail2 hrec2 hmap hr1
    obtain ⟨c2, res, gF, hrun, hq1, hq2, hq3, hq4⟩ :=
      execGraph_chain_fail_second B tn true s1 s2 [s3] [] 0 none
        { sm := TaskState.PLANNED, counts := c0, rollbacks := [], clock := 0 }
        ((chainGraph [s1, s2, s3] tn false).freeze.nodes.length + 1)
        (by intro n hn; cases hn) (by intro n hn; cases hn)
        (by intro p hp; cases hp) (Or.inl rfl) hex1 hver hfail2 hrec2
        (by
          show 2 ≤ (buildNodes 0 none [s1, s2, s3]).length + 1
          rw [buildNodes_length]
          simp only [List.length_cons, List.length_nil]
          omega)
    simp only [List.nil_append] at hrun
    have hfr : (chainGraph [s1, s2, s3] tn false).freeze =
        { nodes := buildNodes 0 none [s1, s2, s3], task_name := tn,
          frozen := true } := rfl
    rw [← hfr] at hrun
    have h0 : rollbackPushOf (freshNode 0 none s1) [] = pushRollback { action := r1, value := s1.value, method := "system", forStep := 0 + 1 } (0 + 1) [] := by
      simp only [rollbackPushOf, freshNode_rollback_action, hmap,
        freshNode_value, freshNode_step_id]
    have hrb : rollbackPushOf (freshNode 0 none s1) [] = [{ step := { action := r1, value := s1.value, method := "system", forStep := 1 }, source := 1 }] := by
      rw [h0, pushRollback, if_neg hr1]
      simp
    rw [runModel]
    simp only [show transition TaskState.INIT TaskState.PLANNED =
      Except.ok TaskState.PLANNED from rfl]
    rw [if_neg (by intro hc; cases hc)]
    rw [fromPlan_chain_ok { task := tn, steps := [s1, s2, s3] } (by simp)]
    have hps : ({ task := tn, steps := [s1, s2, s3] } : Plan).steps =
        [s1, s2, s3] := rfl
    have hpt : ({ task := tn, steps := [s1, s2, s3] } : Plan).task = tn := rfl
    rw [hps, hpt]
    simp only [hrun, hq1, Bool.false_eq_true, if_false]
    refine ⟨_, rfl, hq1, ?_, ?_, hq2, ?_, ?_, ?_⟩
    · exact hq3
    · exact hq4
    · show (rollbackAllExec B.rollbackExec
        (rollbackPushOf (freshNode 0 none s1) [])).map (fun r => r.action) =
        [r1]
      rw [hrb]
      rfl
    · show (rollbackAllExec B.rollbackExec
        (rollbackPushOf (freshNode 0 none s1) [])).map
          (fun r => r.source_step) = [1]
      rw [hrb]
      rfl
    · rfl

/-- Witness for C5: opening firefox succeeds, typing fails on every
method, and the registered `close_window` compensation for step 1 runs. -/
theorem three_step_chain_rollback_witness :
    ∃ out, runModel failStep2Backend ExecMode.LIVE false "" FailCounts.zero { task := "demo", steps := [{ action := "open_app", value := "firefox", method := "system" }, { action := "type_text", value := "x", method := "accessibility" }, { action := "close_window", value := "", method := "system" }] } = Except.ok out ∧
      out.result.success = false ∧
      out.result.steps_done = 1 ∧
      out.result.steps_total = 3 ∧
      out.result.error = exhaustedMsg { action := "type_text", value := "x", method := "accessibility" } ∧
      out.rollbackResults.map (fun r => r.action) = ["close_window"] ∧
      out.rollbackResults.map (fun r => r.source_step) = [1] ∧
      out.finalState = TaskState.INIT :=
  three_step_chain_rollback.2 failStep2Backend
    { action := "open_app", value := "firefox", method := "system" }
    { action := "type_text", value := "x", method := "accessibility" }
    { action := "close_window", value := "", method := "system" }
    "close_window" "demo" FailCounts.zero
    rfl (fun _ => rfl) (fun _ => rfl) rfl rfl (by decide)


theorem checkProcesses_preserves (wc : Bool) (dead : List String) :
    ∀ w : WatchdogState,
      (Watchdog.checkProcesses dead wc w).abortRequested = w.abortRequested ∧
      (Watchdog.checkProcesses dead wc w).abortReason = w.abortReason := by
  induction dead with
  | nil =>
    intro w
    cases wc
    · exact ⟨rfl, rfl⟩
    · exact ⟨rfl, rfl⟩
  | cons p ps ih =>
    intro w
    have hstep : Watchdog.checkProcesses (p :: ps) wc w =
        Watchdog.checkProcesses ps wc
          ((Watchdog.fire "process_dead" ("Monitored process died: " ++ p) w).1) := rfl
    rw [hstep]
    exact ih ((Watchdog.fire "process_dead" ("Monitored process died: " ++ p) w).1)

/-- C7: a stale heartbeat makes `_check_heartbeat` set the abort flag and
fire the heartbeat-timeout alert (and nothing else); `_check_resources`
is a pure warning (watchdog state unchanged, so no abort);
`_check_processes` fires events but never touches the abort flag or
reason; `_on_watchdog_alert` sets the orchestrator abort only for the
heartbeat_timeout event; and when the abort flag is set with a nonempty
reason, the next per-node check in `_exec_graph` halts the run with that
reason as the failure error (success = false) — the node is merely marked
failed, never the executing thread touched. -/
theorem watchdog_heartbeat_abort :
    (∀ (now : Rat) (w : WatchdogState),
      now - w.lastHeartbeat > HEARTBEAT_TIMEOUT_S →
      ∃ msg, (Watchdog.checkHeartbeat now w).2 = some ("heartbeat_timeout", msg) ∧
        (Watchdog.checkHeartbeat now w).1.abortRequested = true ∧
        (Watchdog.checkHeartbeat now w).1.abortReason = msg) ∧
    (∀ (cpu memMb : Rat) (w : WatchdogState),
      Watchdog.checkResources cpu memMb w = w) ∧
    (∀ (dead : List String) (wc : Bool) (w : WatchdogState),
      (Watchdog.checkProcesses dead wc w).abortRequested = w.abortRequested ∧
      (Watchdog.checkProcesses dead wc w).abortReason = w.abortReason) ∧
    ((∀ ab, onWatchdogAlert "heartbeat_timeout" ab = true) ∧
     (∀ e ab, e ≠ "heartbeat_timeout" → onWatchdogAlert e ab = ab)) ∧
    (∀ (B : Backend) (mode : ExecMode) (reason tn : String) (fr : Bool)
       (s : Step) (rest : List Step) (st : OrchState) (fuel : Nat),
      reason ≠ "" →
      transition st.sm TaskState.FAILED = Except.ok TaskState.FAILED →
      1 ≤ fuel →
      ∃ (res : TaskResultM) (gF : StepGraph),
        execGraph B mode true reason fuel
          { nodes := buildNodes 0 none (s :: rest), task_name := tn, frozen := fr }
          st = Except.ok (res, gF,
            { sm := TaskState.FAILED, counts := st.counts,
              rollbacks := st.rollbacks, clock := st.clock + 1 }) ∧
        res.success = false ∧
        res.error = reason) := by
  refine ⟨?_, ?_, ?_, ⟨fun ab => rfl, ?_⟩, ?_⟩
  · intro now w h
    simp only [Watchdog.checkHeartbeat]
    rw [if_pos h]
    exact ⟨_, rfl, rfl, rfl⟩
  · intro cpu memMb w
    rfl
  · intro dead wc w
    exact checkProcesses_preserves wc dead w
  · intro e ab h
    rw [onWatchdogAlert, if_neg h]
  · intro B mode reason tn fr s rest st fuel hreason htr hfuel
    match fuel, hfuel with
    | f + 1, _ =>
      have hbn : buildNodes 0 none (s :: rest) =
          freshNode 0 none s :: buildNodes 1 (some 1) rest := rfl
      rw [execGraph, hbn]
      have hpend := pendingNodes_decomp [] 0 none s rest tn fr
        (by intro n hn; cases hn) (by intro n hn; cases hn)
        (by intro p hp; cases hp)
      simp only [List.nil_append] at hpend
      rw [hpend]
      rw [if_neg (by simp)]
      have hfid : (freshNode 0 none s).step_id = 0 + 1 := rfl
      rw [show ([freshNode 0 none s].map (fun n => n.step_id)) =
        [(freshNode 0 none s).step_id] from rfl]
      have hget := getNode_decomp [] 0 (freshNode 0 none s)
        (buildNodes 1 (some 1) rest) tn fr (by intro n hn; cases hn) rfl
      simp only [List.nil_append] at hget
      rw [forReady, hfid]
      simp only [hget, eq_self_iff_true, if_true, htr]
      rw [if_pos hreason]
      refine ⟨_, _, rfl, ?_, ?_⟩
      · simp [makeResult, hreason]
      · simp [makeResult]

/-- Witness for C7: at time 20 (15s timeout long gone) the watchdog
aborts; a non-heartbeat event leaves the abort flag alone; and with the
abort flag raised the one-step `run_command` chain halts with the
heartbeat reason. -/
theorem watchdog_heartbeat_abort_witness :
    (∃ msg, (Watchdog.checkHeartbeat 20 idleWatchdog).2 =
        some ("heartbeat_timeout", msg) ∧
      (Watchdog.checkHeartbeat 20 idleWatchdog).1.abortRequested = true ∧
      (Watchdog.checkHeartbeat 20 idleWatchdog).1.abortReason = msg) ∧
    onWatchdogAlert "process_dead" false = false ∧
    (∃ (res : TaskResultM) (gF : StepGraph),
      execGraph allOkBackend ExecMode.LIVE true "Heartbeat timeout: frozen" 1
        { nodes := buildNodes 0 none
            [{ action := "run_command", value := "loginctl lock-session", method := "system" }],
          task_name := "lock_screen", frozen := true }
        { sm := TaskState.PLANNED, counts := FailCounts.zero, rollbacks := [],
          clock := 0 } = Except.ok (res, gF,
          { sm := TaskState.FAILED, counts := FailCounts.zero, rollbacks := [],
            clock := 0 + 1 }) ∧
      res.success = false ∧
      res.error = "Heartbeat timeout: frozen") :=
  ⟨watchdog_heartbeat_abort.1 20 idleWatchdog
      (by show (20 : Rat) - 0 > 15; norm_num),
   watchdog_heartbeat_abort.2.2.2.1.2 "process_dead" false (by decide),
   watchdog_heartbeat_abort.2.2.2.2 allOkBackend ExecMode.LIVE
     "Heartbeat timeout: frozen" "lock_screen" true
     { action := "run_command", value := "loginctl lock-session", method := "system" }
     [] { sm := TaskState.PLANNED, counts := FailCounts.zero, rollbacks := [],
          clock := 0 }
     1 (by decide) rfl (by decide)⟩


end Lada
